import Mathlib

/-!
Verification development for the lonely-ircd repository.

The repository's source tree contains only packaging metadata
(`setup.py`); the IRC protocol core (line codec, command dispatcher,
session state machine, registries, router) is not present in the tree.
Following the specification document, the protocol core is modelled
here from the spec's words; `setup.py` is embedded directly.
-/

set_option maxRecDepth 8000

namespace LonelyIrc

/-- Modelled from the spec: ASCII case-folding rule used for nicknames
and channel names ("case-folding for nicknames/channels uses ASCII
rules").  Maps an upper-case ASCII letter to its lower-case form. -/
def foldChar (c : Char) : Char :=
  if 'A' ≤ c ∧ c ≤ 'Z' then Char.ofNat (c.toNat + 32) else c

/-- Case-fold a string using ASCII rules. -/
def casefold (s : String) : String :=
  String.mk (s.data.map foldChar)

/-- Modelled from the spec: a parsed IRC message — optional source
("`:`-prefixed" origin), command, and ordered parameter list. -/
structure Message where
  origin : Option String
  command : String
  params : List String
deriving DecidableEq, Repr

/-- Modelled from the spec: parse errors of the Line Protocol Codec.
`lineTooLong` for lines exceeding 512 bytes including the terminator;
`malformed` for structurally empty content (no command token). -/
inductive ParseError
  | lineTooLong
  | malformed
deriving DecidableEq, Repr

/-- Result of parsing one raw line: an ignored (empty) line, a parse
error, or a parsed message. -/
inductive ParseResult
  | ignored
  | failed (e : ParseError)
  | parsed (m : Message)
deriving DecidableEq, Repr

/-- Byte length of a line (UTF-8). -/
def lineBytes (cs : List Char) : Nat := (cs.map Char.utf8Size).sum

/-- Remove one trailing CRLF terminator, when present. -/
def stripCRLF (cs : List Char) : List Char :=
  if cs.reverse.take 2 = ['\n', '\r'] then (cs.reverse.drop 2).reverse else cs

theorem length_dropWhile_le (p : Char → Bool) (l : List Char) :
    (l.dropWhile p).length ≤ l.length := by
  induction l with
  | nil => simp
  | cons a l ih =>
    rw [List.dropWhile_cons]
    by_cases hp : p a = true
    · simp only [hp, if_true]
      exact Nat.le_succ_of_le ih
    · simp [hp]

/-- Split the part of a line after the origin into tokens: tokens are
space-separated, and a token introduced by `:` consumes the remainder
of the line including spaces (the trailing parameter). -/
def tokenize (cs : List Char) : List (List Char) :=
  if cs = [] then []
  else if cs.head? = some ':' then [cs.tail]
  else
    let tok := cs.takeWhile (· != ' ')
    let rest := cs.dropWhile (· != ' ')
    if h : rest = [] then [tok]
    else tok :: tokenize rest.tail
termination_by cs.length
decreasing_by
  have h1 : (cs.dropWhile (· != ' ')).length ≤ cs.length :=
    length_dropWhile_le _ _
  have h2 : (cs.dropWhile (· != ' ')).length ≠ 0 := by
    intro h0
    exact h (List.length_eq_zero.mp h0)
  have h3 : (cs.dropWhile (· != ' ')).tail.length =
      (cs.dropWhile (· != ' ')).length - 1 := List.length_tail _
  omega

/-- Build a `ParseResult` from an optional origin and the token list of
the rest of the line. -/
def mkParsed (o : Option (List Char)) (cs : List Char) : ParseResult :=
  match tokenize cs with
  | [] => .failed .malformed
  | cmd :: ps => .parsed
      { origin := o.map (fun l => String.mk l)
        command := String.mk cmd
        params := ps.map (fun l => String.mk l) }

/-- Modelled from the spec: `parse` of the Line Protocol Codec.  Lines
longer than 512 bytes including the terminator are rejected with
`ParseError(LineTooLong)`; empty lines are ignored; otherwise an
optional `:`-prefixed origin is split off and the rest is tokenized
into a command and parameters with trailing-parameter handling. -/
def parseChars (raw : List Char) : ParseResult :=
  if 512 < lineBytes raw then .failed .lineTooLong
  else
    let body := stripCRLF raw
    if body = [] then .ignored
    else if body.head? = some ':' then
      let rest := body.tail
      mkParsed (some (rest.takeWhile (· != ' '))) ((rest.dropWhile (· != ' ')).tail)
    else mkParsed none body

/-- String-level `parse`. -/
def parse (line : String) : ParseResult := parseChars line.data

/-- A parameter must be rendered as a trailing (`:`-prefixed) parameter
when it is empty, begins with `:`, or contains a space. -/
def needsColonChars (p : List Char) : Bool :=
  p.isEmpty || p.head? == some ':' || p.contains ' '

/-- Serialize a parameter list: each parameter is preceded by a space;
the final parameter is `:`-prefixed when its content requires it. -/
def serializeParamsChars : List (List Char) → List Char
  | [] => []
  | p :: ps =>
    if ps = [] then (if needsColonChars p then ' ' :: ':' :: p else ' ' :: p)
    else ' ' :: (p ++ serializeParamsChars ps)

/-- The body of a serialized message: optional `:`-prefixed origin,
command, and parameters. -/
def bodyChars (m : Message) : List Char :=
  (match m.origin with
   | some o => ':' :: (o.data ++ [' '])
   | none => []) ++
    (m.command.data ++ serializeParamsChars (m.params.map String.data))

/-- Modelled from the spec: `serialize` of the Line Protocol Codec —
the message body followed by the exact CRLF framing terminator. -/
def serializeChars (m : Message) : List Char :=
  bodyChars m ++ ['\r', '\n']

/-- String-level `serialize`. -/
def serialize (m : Message) : String := String.mk (serializeChars m)

/-- A non-trailing token on the wire: nonempty, without spaces, not
starting with `:`. -/
def MiddleOk (p : List Char) : Prop :=
  p ≠ [] ∧ ' ' ∉ p ∧ p.head? ≠ some ':'

instance (p : List Char) : Decidable (MiddleOk p) :=
  inferInstanceAs (Decidable (_ ∧ _ ∧ _))

/-- Constraint on the optional origin of a well-formed message. -/
def OriginOk : Option (List Char) → Prop
  | none => True
  | some o => o ≠ [] ∧ ' ' ∉ o

instance : DecidablePred OriginOk
  | none => isTrue trivial
  | some o => inferInstanceAs (Decidable (_ ∧ _))

/-- A well-formed message per the spec's grammar: a proper command
token, a proper origin, proper non-trailing parameters, and at most 15
parameters. -/
def WF (m : Message) : Prop :=
  MiddleOk m.command.data ∧ OriginOk (m.origin.map String.data) ∧
    (∀ p ∈ (m.params.map String.data).dropLast, MiddleOk p) ∧
    m.params.length ≤ 15

instance (m : Message) : Decidable (WF m) :=
  inferInstanceAs (Decidable (_ ∧ _ ∧ _ ∧ _))

/-- A syntactically valid wire line: the canonical serialization of a
well-formed message that fits in the 512-byte line limit. -/
def ValidLine (line : String) : Prop :=
  ∃ m : Message, WF m ∧ lineBytes (serializeChars m) ≤ 512 ∧ serialize m = line

theorem mk_data (s : String) : String.mk s.data = s := by
  cases s
  rfl

theorem stripCRLF_append (x : List Char) :
    stripCRLF (x ++ ['\r', '\n']) = x := by
  simp [stripCRLF]

theorem takeWhile_append_all {p : Char → Bool} {l r : List Char}
    (h : ∀ a ∈ l, p a = true) :
    (l ++ r).takeWhile p = l ++ r.takeWhile p := by
  induction l with
  | nil => simp
  | cons a l ih =>
    rw [List.cons_append, List.takeWhile_cons, if_pos (h a (by simp)),
      ih fun a ha => h a (by simp [ha])]
    rfl

theorem dropWhile_append_all {p : Char → Bool} {l r : List Char}
    (h : ∀ a ∈ l, p a = true) :
    (l ++ r).dropWhile p = r.dropWhile p := by
  induction l with
  | nil => simp
  | cons a l ih =>
    rw [List.cons_append, List.dropWhile_cons, if_pos (h a (by simp))]
    exact ih fun a ha => h a (by simp [ha])

theorem middleOk_pred {p : List Char} (h : MiddleOk p) :
    ∀ a ∈ p, (a != ' ') = true := by
  intro a ha
  simp only [bne_iff_ne, ne_eq]
  intro hsp
  exact h.2.1 (hsp ▸ ha)

/-- Tokenizing a trailing parameter. -/
theorem tokenize_colon (p : List Char) : tokenize (':' :: p) = [p] := by
  unfold tokenize
  simp

/-- Tokenizing a single space-free token. -/
theorem tokenize_single {tok : List Char} (htok : MiddleOk tok) :
    tokenize tok = [tok] := by
  have hall : ∀ a ∈ tok, (a != ' ') = true := middleOk_pred htok
  have hhd : ¬tok.head? = some ':' := htok.2.2
  have htw : tok.takeWhile (· != ' ') = tok := by
    simpa using takeWhile_append_all (r := []) hall
  have hdw : tok.dropWhile (· != ' ') = [] := by
    simpa using dropWhile_append_all (r := []) hall
  unfold tokenize
  rw [if_neg htok.1, if_neg hhd]
  simp only [htw, hdw]
  simp

/-- Tokenizing a token followed by a space and a remainder steps once. -/
theorem tokenize_step {tok : List Char} (rest : List Char) (htok : MiddleOk tok) :
    tokenize (tok ++ ' ' :: rest) = tok :: tokenize rest := by
  have hall : ∀ a ∈ tok, (a != ' ') = true := middleOk_pred htok
  have hne : tok ++ ' ' :: rest ≠ [] := by simp
  have hhd : ¬(tok ++ ' ' :: rest).head? = some ':' := by
    cases tok with
    | nil => exact absurd rfl htok.1
    | cons c cs => simpa using htok.2.2
  have htw : (tok ++ ' ' :: rest).takeWhile (· != ' ') = tok := by
    rw [takeWhile_append_all hall]
    simp [List.takeWhile_cons]
  have hdw : (tok ++ ' ' :: rest).dropWhile (· != ' ') = ' ' :: rest := by
    rw [dropWhile_append_all hall]
    simp [List.dropWhile_cons]
  conv_lhs => rw [tokenize]
  rw [if_neg hne, if_neg hhd]
  simp only [htw, hdw]
  rw [dif_neg (by simp)]
  simp

/-- A parameter that does not require the trailing `:` form is a valid
non-trailing token. -/
theorem needsColon_false {p : List Char} (hc : needsColonChars p = false) :
    MiddleOk p := by
  simp only [needsColonChars, Bool.or_eq_false_iff] at hc
  obtain ⟨⟨h1, h2⟩, h3⟩ := hc
  refine ⟨by simpa using h1, ?_, by simpa using h2⟩
  intro hmem
  have h4 := List.elem_eq_true_of_mem hmem
  simp only [List.contains] at h3
  rw [h4] at h3
  exact Bool.false_ne_true h3.symm

/-- `tokenize` recovers a well-formed token followed by serialized
parameters. -/
theorem tokenize_token_params (tok : List Char) (ps : List (List Char))
    (htok : MiddleOk tok) (hps : ∀ q ∈ ps.dropLast, MiddleOk q) :
    tokenize (tok ++ serializeParamsChars ps) = tok :: ps := by
  induction ps generalizing tok with
  | nil =>
    simp only [serializeParamsChars, List.append_nil]
    exact tokenize_single htok
  | cons p ps ih =>
    by_cases hps0 : ps = []
    · subst hps0
      have hsp : serializeParamsChars [p] =
          if needsColonChars p then ' ' :: ':' :: p else ' ' :: p := rfl
      rw [hsp]
      by_cases hc : needsColonChars p = true
      · rw [if_pos hc, tokenize_step _ htok, tokenize_colon]
      · have hc2 : needsColonChars p = false := by simpa using hc
        rw [if_neg hc, tokenize_step _ htok, tokenize_single (needsColon_false hc2)]
    · have hsp : serializeParamsChars (p :: ps) =
          ' ' :: (p ++ serializeParamsChars ps) := by
        cases ps with
        | nil => exact absurd rfl hps0
        | cons q qs => rfl
      have hpmid : MiddleOk p := by
        apply hps
        simp [List.dropLast_cons_of_ne_nil hps0]
      have hps2 : ∀ q ∈ ps.dropLast, MiddleOk q := by
        intro q hq
        apply hps
        simp [List.dropLast_cons_of_ne_nil hps0, hq]
      rw [hsp, tokenize_step _ htok, ih p hpmid hps2]

theorem head?_append_left {l : List Char} (r : List Char) (h : l ≠ []) :
    (l ++ r).head? = l.head? := by
  cases l with
  | nil => exact absurd rfl h
  | cons a as => rfl

/-- Stepping lemma: a short enough line without a `:` origin parses as
bare command and parameters. -/
theorem parseChars_plain {raw b : List Char} (hlen : lineBytes raw ≤ 512)
    (hb : stripCRLF raw = b) (hne : b ≠ []) (hhd : ¬b.head? = some ':') :
    parseChars raw = mkParsed none b := by
  simp only [parseChars]
  rw [hb, if_neg (Nat.not_lt.mpr hlen), if_neg hne, if_neg hhd]

/-- Stepping lemma: a short enough line starting with `:` parses its
origin first. -/
theorem parseChars_origin {raw r : List Char} (hlen : lineBytes raw ≤ 512)
    (hb : stripCRLF raw = ':' :: r) :
    parseChars raw =
      mkParsed (some (r.takeWhile (· != ' '))) ((r.dropWhile (· != ' ')).tail) := by
  simp only [parseChars]
  rw [hb, if_neg (Nat.not_lt.mpr hlen), if_neg (by simp)]
  simp

/-- Parsing inverts serialization on well-formed messages that fit the
line limit. -/
theorem parse_serialize (m : Message) (hwf : WF m)
    (hlen : lineBytes (serializeChars m) ≤ 512) :
    parse (serialize m) = .parsed m := by
  obtain ⟨horigin, command, params⟩ := m
  obtain ⟨hcmd, horig, hps, _⟩ := hwf
  have hbody : stripCRLF (serializeChars ⟨horigin, command, params⟩) =
      bodyChars ⟨horigin, command, params⟩ := stripCRLF_append _
  have htok : tokenize (command.data ++ serializeParamsChars (params.map String.data)) =
      command.data :: params.map String.data := tokenize_token_params _ _ hcmd hps
  have hparse : parse (serialize ⟨horigin, command, params⟩) =
      parseChars (serializeChars ⟨horigin, command, params⟩) := rfl
  rw [hparse]
  cases horigin with
  | none =>
    have hb2 : bodyChars ⟨none, command, params⟩ =
        command.data ++ serializeParamsChars (params.map String.data) := by
      simp [bodyChars]
    rw [hb2] at hbody
    have hne : command.data ++ serializeParamsChars (params.map String.data) ≠ [] := by
      intro h0
      exact hcmd.1 (List.append_eq_nil.mp h0).1
    have hhd : ¬(command.data ++
        serializeParamsChars (params.map String.data)).head? = some ':' := by
      rw [head?_append_left _ hcmd.1]
      exact hcmd.2.2
    rw [parseChars_plain hlen hbody hne hhd]
    simp only [mkParsed, htok]
    simp only [List.map_map, Option.map_none']
    have hid : ((fun l => String.mk l) ∘ String.data) = id := by
      funext s
      exact mk_data s
    rw [hid, List.map_id]
  | some o =>
    have ho : o.data ≠ [] ∧ ' ' ∉ o.data := horig
    have hoall : ∀ a ∈ o.data, (a != ' ') = true := by
      intro a ha
      simp only [bne_iff_ne, ne_eq]
      intro hsp
      exact ho.2 (hsp ▸ ha)
    have hb2 : bodyChars ⟨some o, command, params⟩ =
        ':' :: (o.data ++ ' ' ::
          (command.data ++ serializeParamsChars (params.map String.data))) := by
      simp [bodyChars]
    rw [hb2] at hbody
    rw [parseChars_origin hlen hbody]
    rw [takeWhile_append_all hoall, dropWhile_append_all hoall]
    simp only [List.takeWhile_cons, List.dropWhile_cons]
    norm_num
    simp only [mkParsed, htok]
    simp only [List.map_map, Option.map_some']
    have hid : ((fun l => String.mk l) ∘ String.data) = id := by
      funext s
      exact mk_data s
    rw [hid, List.map_id]

/-- C5: For every syntactically valid line, including lines whose
trailing parameter has embedded spaces, serializing the parse of the
line reproduces the line exactly, with its CRLF terminator. -/
theorem c5_serialize_parse_roundtrip (line : String) (h : ValidLine line) :
    ∃ m : Message, parse line = .parsed m ∧ serialize m = line := by
  obtain ⟨m, hwf, hlen, hser⟩ := h
  refine ⟨m, ?_, hser⟩
  rw [← hser]
  exact parse_serialize m hwf hlen

/-- Sample message whose trailing parameter contains embedded spaces. -/
def sampleMsg : Message :=
  { origin := some "alice!u@h"
    command := "PRIVMSG"
    params := ["#test", "hello big world"] }

/-- Canonical wire form of `sampleMsg`. -/
def sampleLine : String := ":alice!u@h PRIVMSG #test :hello big world\r\n"

theorem c5_roundtrip_witness :
    ∃ m : Message, parse sampleLine = .parsed m ∧ serialize m = sampleLine :=
  c5_serialize_parse_roundtrip sampleLine ⟨sampleMsg, by decide, by decide, by decide⟩

/-- C6: Lines longer than 512 bytes (terminator included) are rejected
with `ParseError(LineTooLong)`; an empty input line yields no message
and no error. -/
theorem c6_line_too_long_and_empty :
    (∀ raw : String, 512 < lineBytes raw.data →
      parse raw = .failed .lineTooLong) ∧
    parse "" = .ignored := by
  constructor
  · intro raw hlong
    show parseChars raw.data = .failed .lineTooLong
    simp only [parseChars]
    rw [if_pos hlong]
  · decide

/-- A 600-byte line, used to exercise the length check. -/
def longLine : String := String.mk (List.replicate 600 'a')

theorem c6_witness :
    parse longLine = .failed .lineTooLong ∧ parse "" = .ignored :=
  ⟨c6_line_too_long_and_empty.1 longLine (by decide),
    c6_line_too_long_and_empty.2⟩

/-! ## Server data model (modelled from the spec, §3) -/

/-- Session registration states: UNREGISTERED → REGISTERED → CLOSING. -/
inductive RegState
  | unregistered
  | registered
  | closing
deriving DecidableEq, Repr

/-- Modelled from the spec: the per-connection Client Session. -/
structure Session where
  state : RegState
  nickname : Option String
  username : Option String
  realname : Option String
  hostname : String
  modes : List Char
  channels : List String
deriving DecidableEq, Repr

/-- Per-member channel flags (operator, voice). -/
structure MemberFlags where
  op : Bool
  voice : Bool
deriving DecidableEq, Repr

/-- Channel mode flags (invite-only, moderated, secret, topic
restricted to operators, no external messages). -/
structure ChanModes where
  inviteOnly : Bool
  moderated : Bool
  secret : Bool
  topicRestricted : Bool
  noExternal : Bool
deriving DecidableEq, Repr

/-- Modelled from the spec: a Channel with topic, modes, ban and
invite lists, and a membership map from session id to member flags. -/
structure Channel where
  name : String
  topic : Option String
  modes : ChanModes
  key : Option String
  banMasks : List String
  inviteList : List String
  members : List (Nat × MemberFlags)
deriving DecidableEq, Repr

/-- Modelled from the spec: whole-server state — configuration, the
session table, the Client Registry (case-folded nickname → session id)
and the Channel Registry (case-folded name → channel). -/
structure Server where
  serverName : String
  motd : List String
  sessions : List (Nat × Session)
  clientReg : List (String × Nat)
  channels : List (String × Channel)
deriving DecidableEq, Repr

/-- An output: a target session id together with the message routed to
it. -/
abbrev Output := Nat × Message

/-- Association-list lookup. -/
def alook {κ α : Type} [DecidableEq κ] (k : κ) : List (κ × α) → Option α
  | [] => none
  | kv :: rest => if kv.1 = k then some kv.2 else alook k rest

/-- Association-list erase (all entries with the given key). -/
def aerase {κ α : Type} [DecidableEq κ] (k : κ) : List (κ × α) → List (κ × α)
  | [] => []
  | kv :: rest => if kv.1 = k then aerase k rest else kv :: aerase k rest

/-- Association-list pointwise update at one key. -/
def aupd {κ α : Type} [DecidableEq κ] (k : κ) (f : α → α) :
    List (κ × α) → List (κ × α)
  | [] => []
  | kv :: rest =>
    if kv.1 = k then (kv.1, f kv.2) :: aupd k f rest
    else kv :: aupd k f rest

/-- The keys of an association list. -/
def keys {κ α : Type} (l : List (κ × α)) : List κ := l.map Prod.fst

/-- Nickname shown for a session; `*` before NICK. -/
def sessionNick (sess : Session) : String := sess.nickname.getD "*"

/-- Message-origin ("prefix") formatting: `nick!user@host`. -/
def userPrefix (sess : Session) : String :=
  sessionNick sess ++ "!" ++ sess.username.getD "*" ++ "@" ++ sess.hostname

/-- Render a numeric reply code as three digits. -/
def fmtCode (code : Nat) : String :=
  let s := toString code
  String.mk (List.replicate (3 - s.length) '0' ++ s.data)

/-- The nickname used to address numerics to a session. -/
def nickOf (srv : Server) (sid : Nat) : String :=
  match alook sid srv.sessions with
  | some sess => sessionNick sess
  | none => "*"

/-- A numeric reply from the server, addressed to the issuing session:
`:<server-name> <3-digit-code> <target> <params...>`. -/
def numeric (srv : Server) (sid : Nat) (code : Nat) (ps : List String) : Output :=
  (sid, { origin := some srv.serverName
          command := fmtCode code
          params := nickOf srv sid :: ps })

/-- True when the target session exists and is not CLOSING. -/
def notClosing (srv : Server) (t : Nat) : Bool :=
  match alook t srv.sessions with
  | some sess => decide (sess.state ≠ RegState.closing)
  | none => false

/-- Modelled from the spec: the Router.  Delivers one message to each
target session, silently dropping output for a session already in
CLOSING state (and for unknown sessions); no retries. -/
def route (srv : Server) (targets : List Nat) (m : Message) : List Output :=
  (targets.filter (notClosing srv)).map (fun t => (t, m))

/-- The session ids of a channel's members. -/
def memberIds (c : Channel) : List Nat := c.members.map Prod.fst

/-- Membership test. -/
def isMember (c : Channel) (sid : Nat) : Bool := (alook sid c.members).isSome

/-- Operator-flag test. -/
def isOp (c : Channel) (sid : Nat) : Bool :=
  match alook sid c.members with
  | some f => f.op
  | none => false

/-- Channel names carry a leading `#` or `&` sigil. -/
def isChannelName (s : String) : Bool :=
  s.data.head? == some '#' || s.data.head? == some '&'

/-- Update one session in place. -/
def updSession (srv : Server) (sid : Nat) (f : Session → Session) : Server :=
  { srv with sessions := aupd sid f srv.sessions }

/-- MOTD numerics (375 start, 372 per line, 376 end). -/
def motdOutputs (srv : Server) (sid : Nat) : List Output :=
  numeric srv sid 375 ["- " ++ srv.serverName ++ " Message of the day"] ::
    (srv.motd.map (fun l => numeric srv sid 372 ["- " ++ l]) ++
      [numeric srv sid 376 ["End of MOTD command"]])

/-- Welcome numerics (001–004) followed by the MOTD. -/
def welcomeOutputs (srv : Server) (sid : Nat) (n : String) : List Output :=
  [numeric srv sid 1 ["Welcome to the lonely IRC network " ++ n],
   numeric srv sid 2 ["Your host is " ++ srv.serverName],
   numeric srv sid 3 ["This server was created just for you"],
   numeric srv sid 4 [srv.serverName, "lonely-ircd", "o", "biklmnopstv"]] ++
    motdOutputs srv sid

/-- Modelled from the spec: the nickname-collision test, performed as
an atomic check against every live (non-CLOSING) session other than
the claimant, covering both registered nicknames and candidate
nicknames recorded before registration (case-folded). -/
def nickTaken (srv : Server) (selfSid : Nat) (n : String) : Bool :=
  srv.sessions.any (fun kv =>
    kv.1 != selfSid && decide (kv.2.state ≠ RegState.closing) &&
      kv.2.nickname.any (fun n2 => casefold n2 == casefold n))

/-- Modelled from the spec: once both nickname and username are set on
an UNREGISTERED session, transition it to REGISTERED, enter it into
the Client Registry under its case-folded nickname, and emit the
welcome numerics (001–004) and MOTD. -/
def tryRegister (srv : Server) (sid : Nat) : Server × List Output :=
  match alook sid srv.sessions with
  | none => (srv, [])
  | some sess =>
    match sess.nickname with
    | none => (srv, [])
    | some n =>
      match sess.username with
      | none => (srv, [])
      | some _ =>
        if sess.state = RegState.unregistered then
          let srv2 := updSession srv sid
            (fun s => { s with state := RegState.registered })
          let srv3 := { srv2 with clientReg := (casefold n, sid) :: srv2.clientReg }
          (srv3, welcomeOutputs srv3 sid n)
        else (srv, [])

/-- Session ids sharing at least one channel with `sid` (with
duplicates across channels). -/
def sharedChannelPeers (srv : Server) (sid : Nat) : List Nat :=
  (srv.channels.filterMap (fun kc =>
    if isMember kc.2 sid then some (memberIds kc.2) else none)).flatten

/-- Modelled from the spec: NICK on a REGISTERED session — uniqueness
already validated — updates the Client Registry key and broadcasts one
NICK-change notification to the session itself and each peer sharing a
channel, de-duplicated by target session. -/
def nickChange (srv : Server) (sid : Nat) (sess : Session) (n : String) :
    Server × List Output :=
  let oldKey := casefold (sessionNick sess)
  let notice : Message :=
    { origin := some (userPrefix sess), command := "NICK", params := [n] }
  let targets := (sid :: sharedChannelPeers srv sid).dedup
  let srv2 := updSession srv sid (fun s => { s with nickname := some n })
  let srv3 := { srv2 with clientReg := (casefold n, sid) :: aerase oldKey srv2.clientReg }
  (srv3, route srv3 targets notice)

/-- Modelled from the spec: the NICK handler.  In UNREGISTERED state a
collision yields 433 and no change; otherwise the candidate nickname
is recorded and registration fires when USER is already done.  In
REGISTERED state a collision yields 433; otherwise the nick change is
applied and broadcast. -/
def handleNick (srv : Server) (sid : Nat) (sess : Session) (ps : List String) :
    Server × List Output :=
  match ps with
  | [] => (srv, [])
  | n :: _ =>
    if nickTaken srv sid n then
      (srv, [numeric srv sid 433 [n, "Nickname is already in use"]])
    else
      match sess.state with
      | RegState.unregistered =>
        tryRegister (updSession srv sid (fun s => { s with nickname := some n })) sid
      | RegState.registered => nickChange srv sid sess n
      | RegState.closing => (srv, [])

/-- Modelled from the spec: the USER handler records username and
realname during UNREGISTERED state, then fires registration if the
nickname is already set; it is silently ignored otherwise. -/
def handleUser (srv : Server) (sid : Nat) (sess : Session) (ps : List String) :
    Server × List Output :=
  match ps with
  | u :: _ :: _ :: r :: _ =>
    match sess.state with
    | RegState.unregistered =>
      tryRegister
        (updSession srv sid (fun s => { s with username := some u, realname := some r }))
        sid
    | _ => (srv, [])
  | _ => (srv, [])

/-- The JOIN notification, with message-origin prefix. -/
def joinMsg (sess : Session) (ch : String) : Message :=
  { origin := some (userPrefix sess), command := "JOIN", params := [ch] }

/-- The channel created by the first JOIN: the joining session is the
sole member and holds the operator flag. -/
def newChannel (sid : Nat) (ch : String) : Channel :=
  { name := ch, topic := none
    modes := { inviteOnly := false, moderated := false, secret := false
               topicRestricted := false, noExternal := true }
    key := none, banMasks := [], inviteList := []
    members := [(sid, { op := true, voice := false })] }

/-- Modelled from the spec: JOIN on a nonexistent channel creates it
with the joiner as sole member holding the operator flag, then
broadcasts JOIN. -/
def joinNewChannel (srv : Server) (sid : Nat) (sess : Session) (ch : String) :
    Server × List Output :=
  let c : Channel := newChannel sid ch
  let srv2 := { srv with channels := (casefold ch, c) :: srv.channels }
  let srv3 := updSession srv2 sid
    (fun s => { s with channels := casefold ch :: s.channels })
  (srv3, route srv3 [sid] (joinMsg sess ch))

/-- Modelled from the spec: the JOIN handler — create on first join;
otherwise validate invite-only (473), ban (474) and key (475)
constraints, add the member with no special flags, and broadcast JOIN
to all current members including the joiner after the membership
update. -/
def handleJoin (srv : Server) (sid : Nat) (sess : Session) (ps : List String) :
    Server × List Output :=
  match ps with
  | [] => (srv, [])
  | ch :: rest =>
    if ¬isChannelName ch then (srv, [numeric srv sid 403 [ch, "No such channel"]])
    else
      match alook (casefold ch) srv.channels with
      | none => joinNewChannel srv sid sess ch
      | some c =>
        if isMember c sid then (srv, [])
        else if c.modes.inviteOnly &&
            !(c.inviteList.contains (casefold (sessionNick sess))) then
          (srv, [numeric srv sid 473 [ch, "Cannot join channel (invite only)"]])
        else if c.banMasks.contains (casefold (sessionNick sess)) then
          (srv, [numeric srv sid 474 [ch, "Cannot join channel (banned)"]])
        else if c.key.isSome && rest.head? != c.key then
          (srv, [numeric srv sid 475 [ch, "Cannot join channel (bad key)"]])
        else
          let chans2 := aupd (casefold ch)
            (fun c2 => { c2 with
              members := c2.members ++ [(sid, { op := false, voice := false })] })
            srv.channels
          let srv2 := { srv with channels := chans2 }
          let srv3 := updSession srv2 sid
            (fun s => { s with channels := casefold ch :: s.channels })
          (srv3, route srv3 (memberIds c ++ [sid]) (joinMsg sess ch))

/-- Remove one member from the channel stored under `key`; the channel
is destroyed (removed from the Channel Registry) if it is now empty. -/
def removeMember (srv : Server) (key : String) (sid : Nat) : Server :=
  match alook key srv.channels with
  | none => srv
  | some c =>
    let srv2 :=
      if aerase sid c.members = [] then
        { srv with channels := aerase key srv.channels }
      else
        let chans2 :=
          aupd key (fun c2 => { c2 with members := aerase sid c2.members })
            srv.channels
        { srv with channels := chans2 }
    updSession srv2 sid (fun s => { s with channels := s.channels.erase key })

/-- Modelled from the spec: the PART handler — 403 for an unknown
channel, 442 when not a member; otherwise broadcast PART to the
members present before removal (including the leaver), remove the
member, and destroy the channel if now empty. -/
def handlePart (srv : Server) (sid : Nat) (sess : Session) (ps : List String) :
    Server × List Output :=
  match ps with
  | [] => (srv, [])
  | ch :: rest =>
    match alook (casefold ch) srv.channels with
    | none => (srv, [numeric srv sid 403 [ch, "No such channel"]])
    | some c =>
      if ¬isMember c sid then
        (srv, [numeric srv sid 442 [ch, "You are not on that channel"]])
      else
        let reason := match rest with | [] => sessionNick sess | r :: _ => r
        let msg : Message :=
          { origin := some (userPrefix sess), command := "PART", params := [ch, reason] }
        (removeMember srv (casefold ch) sid, route srv (memberIds c) msg)

/-- Modelled from the spec: the KICK handler — requires the operator
flag on the kicker; removes the target's membership and broadcasts
KICK to all members including the kicked. -/
def handleKick (srv : Server) (sid : Nat) (sess : Session) (ps : List String) :
    Server × List Output :=
  match ps with
  | ch :: targetNick :: rest =>
    match alook (casefold ch) srv.channels with
    | none => (srv, [numeric srv sid 403 [ch, "No such channel"]])
    | some c =>
      if ¬isMember c sid then
        (srv, [numeric srv sid 442 [ch, "You are not on that channel"]])
      else if ¬isOp c sid then
        (srv, [numeric srv sid 482 [ch, "You are not channel operator"]])
      else
        match alook (casefold targetNick) srv.clientReg with
        | none => (srv, [numeric srv sid 401 [targetNick, "No such nick"]])
        | some tsid =>
          if ¬isMember c tsid then
            (srv, [numeric srv sid 441 [targetNick, ch, "They are not on that channel"]])
          else
            let reason := match rest with | [] => sessionNick sess | r :: _ => r
            let msg : Message :=
              { origin := some (userPrefix sess), command := "KICK"
                params := [ch, targetNick, reason] }
            (removeMember srv (casefold ch) tsid, route srv (memberIds c) msg)
  | _ => (srv, [])

/-- Modelled from the spec: PRIVMSG and NOTICE — a channel target is
broadcast to all members except the sender; a nickname target is
delivered directly (401 when absent); NOTICE suppresses all error
replies; membership (or external permission) is required to message a
channel. -/
def handleMsgCmd (srv : Server) (sid : Nat) (sess : Session) (isNotice : Bool)
    (ps : List String) : Server × List Output :=
  match ps with
  | target :: text :: _ =>
    let msg : Message :=
      { origin := some (userPrefix sess)
        command := if isNotice then "NOTICE" else "PRIVMSG"
        params := [target, text] }
    if isChannelName target then
      match alook (casefold target) srv.channels with
      | none =>
        if isNotice then (srv, [])
        else (srv, [numeric srv sid 403 [target, "No such channel"]])
      | some c =>
        if !isMember c sid && c.modes.noExternal then
          if isNotice then (srv, [])
          else (srv, [numeric srv sid 442 [target, "Cannot send to channel"]])
        else
          (srv, route srv ((memberIds c).filter (fun t => t != sid)) msg)
    else
      match alook (casefold target) srv.clientReg with
      | none =>
        if isNotice then (srv, [])
        else (srv, [numeric srv sid 401 [target, "No such nick"]])
      | some tsid => (srv, route srv [tsid] msg)
  | _ => (srv, [])

/-- Modelled from the spec: the TOPIC handler — read returns the topic
numeric; write requires the operator flag when the channel restricts
topic changes; TOPIC is broadcast on change. -/
def handleTopic (srv : Server) (sid : Nat) (sess : Session) (ps : List String) :
    Server × List Output :=
  match ps with
  | [] => (srv, [])
  | ch :: rest =>
    match alook (casefold ch) srv.channels with
    | none => (srv, [numeric srv sid 403 [ch, "No such channel"]])
    | some c =>
      if ¬isMember c sid then
        (srv, [numeric srv sid 442 [ch, "You are not on that channel"]])
      else
        match rest with
        | [] =>
          match c.topic with
          | none => (srv, [numeric srv sid 331 [ch, "No topic is set"]])
          | some t => (srv, [numeric srv sid 332 [ch, t]])
        | t :: _ =>
          if c.modes.topicRestricted && !isOp c sid then
            (srv, [numeric srv sid 482 [ch, "You are not channel operator"]])
          else
            let chans2 :=
              aupd (casefold ch) (fun c2 => { c2 with topic := some t }) srv.channels
            let srv2 := { srv with channels := chans2 }
            (srv2, route srv2 (memberIds c)
              { origin := some (userPrefix sess), command := "TOPIC", params := [ch, t] })

/-- Channel mode letters understood by this server. -/
def modeLetterKnown (c : Char) : Bool :=
  c == 'i' || c == 'm' || c == 's' || c == 't' || c == 'n'

/-- Apply one channel mode letter. -/
def applyMode (add : Bool) (m : ChanModes) (c : Char) : ChanModes :=
  if c = 'i' then { m with inviteOnly := add }
  else if c = 'm' then { m with moderated := add }
  else if c = 's' then { m with secret := add }
  else if c = 't' then { m with topicRestricted := add }
  else if c = 'n' then { m with noExternal := add }
  else m

/-- Modelled from the spec: the MODE handler — only channel operators
may change modes; unknown mode letters yield 472 with no change; mode
deltas are validated first and applied atomically, then MODE is
broadcast. -/
def handleMode (srv : Server) (sid : Nat) (sess : Session) (ps : List String) :
    Server × List Output :=
  match ps with
  | ch :: ms :: _ =>
    match alook (casefold ch) srv.channels with
    | none => (srv, [numeric srv sid 403 [ch, "No such channel"]])
    | some c =>
      if ¬isOp c sid then
        (srv, [numeric srv sid 482 [ch, "You are not channel operator"]])
      else
        match ms.data with
        | [] => (srv, [])
        | sign :: letters =>
          if sign ≠ '+' ∧ sign ≠ '-' then
            (srv, [numeric srv sid 472 [ms, "is unknown mode char to me"]])
          else
            match letters.find? (fun l => !modeLetterKnown l) with
            | some bad =>
              (srv, [numeric srv sid 472 [String.mk [bad], "is unknown mode char to me"]])
            | none =>
              let chans2 := aupd (casefold ch)
                (fun c2 => { c2 with
                  modes := letters.foldl (applyMode (sign == '+')) c2.modes })
                srv.channels
              let srv2 := { srv with channels := chans2 }
              (srv2, route srv2 (memberIds c)
                { origin := some (userPrefix sess), command := "MODE"
                  params := [ch, ms] })
  | _ => (srv, [])

/-- Modelled from the spec: QUIT cleanup, run exactly once — the
session transitions to CLOSING, a QUIT notification is broadcast to
the other members of every channel it belonged to, and it is removed
from the Client Registry and from every channel's membership; any
channel left empty is destroyed. -/
def quitCleanup (srv : Server) (sid : Nat) (reason : String) :
    Server × List Output :=
  match alook sid srv.sessions with
  | none => (srv, [])
  | some sess =>
    if sess.state = RegState.closing then (srv, [])
    else
      let msg : Message :=
        { origin := some (userPrefix sess), command := "QUIT", params := [reason] }
      let outs := (srv.channels.filter (fun kc => isMember kc.2 sid)).flatMap
        (fun kc => route srv ((memberIds kc.2).filter (fun t => t != sid)) msg)
      let srv2 := updSession srv sid
        (fun s => { s with state := RegState.closing, channels := [] })
      let reg2 :=
        match sess.nickname with
        | some n => aerase (casefold n) srv2.clientReg
        | none => srv2.clientReg
      let srv3 := { srv2 with clientReg := reg2 }
      let chans2 :=
        (srv3.channels.map
            (fun kc => (kc.1, { kc.2 with members := aerase sid kc.2.members }))).filter
          (fun kc => !kc.2.members.isEmpty)
      let srv4 := { srv3 with channels := chans2 }
      (srv4, outs)

/-- The QUIT handler. -/
def handleQuit (srv : Server) (sid : Nat) (ps : List String) :
    Server × List Output :=
  quitCleanup srv sid (match ps with | [] => "Client quit" | r :: _ => r)

/-- NAMES read-only reply (353/366). -/
def handleNames (srv : Server) (sid : Nat) (ps : List String) :
    Server × List Output :=
  match ps with
  | [] => (srv, [])
  | ch :: _ =>
    match alook (casefold ch) srv.channels with
    | none => (srv, [numeric srv sid 366 [ch, "End of NAMES list"]])
    | some c =>
      (srv,
        [numeric srv sid 353 ["=", ch,
            String.intercalate " " (c.members.map (fun mf =>
              (if mf.2.op then "@" else "") ++ nickOf srv mf.1))],
         numeric srv sid 366 [ch, "End of NAMES list"]])

/-- WHO read-only reply (315 end marker only). -/
def handleWho (srv : Server) (sid : Nat) (ps : List String) :
    Server × List Output :=
  (srv, [numeric srv sid 315 [match ps with | [] => "*" | m :: _ => m,
    "End of WHO list"]])

/-- PING replies PONG, in any state. -/
def handlePing (srv : Server) (sid : Nat) (ps : List String) :
    Server × List Output :=
  match ps with
  | [] => (srv, [])
  | token :: _ =>
    (srv, [(sid, { origin := some srv.serverName, command := "PONG"
                   params := [srv.serverName, token] })])

/-- Modelled from the spec: the supported command set (§6). -/
def knownCommands : List String :=
  ["PASS", "NICK", "USER", "QUIT", "PING", "PONG", "JOIN", "PART",
   "PRIVMSG", "NOTICE", "TOPIC", "MODE", "KICK", "NAMES", "WHO", "MOTD"]

/-- Commands valid only after registration: everything except PASS,
NICK, USER, QUIT, PING and PONG. -/
def requiresRegistration (cmd : String) : Bool :=
  !(["PASS", "NICK", "USER", "QUIT", "PING", "PONG"].contains cmd)

/-- Required parameter counts; violations yield 461 naming the
command. -/
def minParams (cmd : String) : Nat :=
  if cmd = "NICK" then 1
  else if cmd = "USER" then 4
  else if cmd = "JOIN" then 1
  else if cmd = "PART" then 1
  else if cmd = "PRIVMSG" then 2
  else if cmd = "NOTICE" then 2
  else if cmd = "KICK" then 2
  else if cmd = "TOPIC" then 1
  else if cmd = "MODE" then 2
  else if cmd = "PING" then 1
  else if cmd = "NAMES" then 1
  else 0

/-- ASCII upper-casing of one character. -/
def upChar (c : Char) : Char :=
  if 'a' ≤ c ∧ c ≤ 'z' then Char.ofNat (c.toNat - 32) else c

/-- ASCII upper-casing, used for dispatch lookup. -/
def upCase (s : String) : String := String.mk (s.data.map upChar)

/-- Modelled from the spec: the Command Dispatch Table.  Lookup is by
uppercased command name; unknown commands yield 421; commands that
require registration yield 451 in the wrong state; parameter-count
violations yield 461 naming the command; otherwise the matching
handler runs. -/
def dispatchCmd (srv : Server) (sid : Nat) (sess : Session) (cmd : String)
    (ps : List String) : Server × List Output :=
  if ¬(knownCommands.contains cmd) then
    (srv, [numeric srv sid 421 [cmd, "Unknown command"]])
  else if requiresRegistration cmd && decide (sess.state ≠ RegState.registered) then
    (srv, [numeric srv sid 451 ["You have not registered"]])
  else if ps.length < minParams cmd then
    (srv, [numeric srv sid 461 [cmd, "Not enough parameters"]])
  else if cmd = "NICK" then handleNick srv sid sess ps
  else if cmd = "USER" then handleUser srv sid sess ps
  else if cmd = "JOIN" then handleJoin srv sid sess ps
  else if cmd = "PART" then handlePart srv sid sess ps
  else if cmd = "PRIVMSG" then handleMsgCmd srv sid sess false ps
  else if cmd = "NOTICE" then handleMsgCmd srv sid sess true ps
  else if cmd = "KICK" then handleKick srv sid sess ps
  else if cmd = "TOPIC" then handleTopic srv sid sess ps
  else if cmd = "MODE" then handleMode srv sid sess ps
  else if cmd = "QUIT" then handleQuit srv sid ps
  else if cmd = "PING" then handlePing srv sid ps
  else if cmd = "NAMES" then handleNames srv sid ps
  else if cmd = "WHO" then handleWho srv sid ps
  else if cmd = "MOTD" then (srv, motdOutputs srv sid)
  else (srv, [])

/-- Dispatch proper: the handler table is consulted with the
uppercased command name. -/
def dispatch (srv : Server) (sid : Nat) (m : Message) : Server × List Output :=
  match alook sid srv.sessions with
  | none => (srv, [])
  | some sess => dispatchCmd srv sid sess (upCase m.command) m.params

/-- Modelled from the spec: per-connection inbound processing.  A
session in CLOSING state accepts no further command processing. -/
def processMessage (srv : Server) (sid : Nat) (m : Message) :
    Server × List Output :=
  match alook sid srv.sessions with
  | none => (srv, [])
  | some sess =>
    if sess.state = RegState.closing then (srv, [])
    else dispatch srv sid m

/-- A fresh session, created on connection accept. -/
def freshSession : Session :=
  { state := RegState.unregistered, nickname := none, username := none
    realname := none, hostname := "localhost", modes := [], channels := [] }

/-- Accept a new connection under an unused session id. -/
def acceptConn (srv : Server) (sid : Nat) : Server :=
  { srv with sessions := (sid, freshSession) :: srv.sessions }

/-- Connection loss runs the QUIT cleanup path. -/
def disconnect (srv : Server) (sid : Nat) : Server :=
  (quitCleanup srv sid "Connection closed").1

/-- The initial (empty) server state for a given configuration. -/
def Server.init (name : String) (motd : List String) : Server :=
  { serverName := name, motd := motd, sessions := [], clientReg := []
    channels := [] }

/-- One step of the server: accepting a fresh connection, processing
one inbound message on a connection, or losing a connection. -/
inductive Step : Server → Server → Prop
  | accept (srv : Server) (sid : Nat) (h : alook sid srv.sessions = none) :
      Step srv (acceptConn srv sid)
  | msg (srv : Server) (sid : Nat) (m : Message) :
      Step srv (processMessage srv sid m).1
  | lost (srv : Server) (sid : Nat) :
      Step srv (disconnect srv sid)

/-- Reachable server states. -/
inductive Reachable : Server → Prop
  | init (name : String) (motd : List String) : Reachable (Server.init name motd)
  | step {s s2 : Server} : Reachable s → Step s s2 → Reachable s2

/-! ## Association-list lemmas -/

section AList

variable {κ α : Type} [DecidableEq κ]

theorem alook_eq_none_iff {k : κ} {l : List (κ × α)} :
    alook k l = none ↔ k ∉ keys l := by
  induction l with
  | nil => simp [alook, keys]
  | cons kv rest ih =>
    by_cases h : kv.1 = k
    · simp [alook, h, keys]
    · simp [alook, h, keys, ih, Ne.symm h]

theorem alook_mem {k : κ} {v : α} {l : List (κ × α)}
    (h : alook k l = some v) : (k, v) ∈ l := by
  induction l with
  | nil => simp [alook] at h
  | cons kv rest ih =>
    obtain ⟨k1, v1⟩ := kv
    by_cases hk : k1 = k
    · rw [alook, if_pos hk] at h
      subst hk
      injection h with h2
      subst h2
      exact List.mem_cons_self _ _
    · rw [alook, if_neg hk] at h
      exact List.mem_cons_of_mem _ (ih h)

theorem mem_alook {k : κ} {v : α} {l : List (κ × α)}
    (hnd : (keys l).Nodup) (h : (k, v) ∈ l) : alook k l = some v := by
  induction l with
  | nil => simp at h
  | cons kv rest ih =>
    rw [keys, List.map_cons, List.nodup_cons] at hnd
    rcases List.mem_cons.mp h with h1 | h1
    · rw [← h1, alook, if_pos rfl]
    · have hk : kv.1 ≠ k := by
        intro he
        exact hnd.1 (he ▸ (List.mem_map.mpr ⟨(k, v), h1, rfl⟩))
      rw [alook, if_neg hk]
      exact ih hnd.2 h1

theorem keys_aupd (k : κ) (f : α → α) (l : List (κ × α)) :
    keys (aupd k f l) = keys l := by
  induction l with
  | nil => rfl
  | cons kv rest ih =>
    by_cases h : kv.1 = k
    · simp [aupd, h, keys] at ih ⊢
      exact ih
    · simp [aupd, h, keys] at ih ⊢
      exact ih

theorem alook_aupd_other {k k2 : κ} (f : α → α) {l : List (κ × α)}
    (h : k2 ≠ k) : alook k2 (aupd k f l) = alook k2 l := by
  induction l with
  | nil => rfl
  | cons kv rest ih =>
    by_cases hk : kv.1 = k
    · have : kv.1 ≠ k2 := by
        rw [hk]
        exact fun he => h he.symm
      rw [aupd, if_pos hk, alook, if_neg this, alook, if_neg this, ih]
    · by_cases hk2 : kv.1 = k2
      · rw [aupd, if_neg hk, alook, if_pos hk2, alook, if_pos hk2]
      · rw [aupd, if_neg hk, alook, if_neg hk2, alook, if_neg hk2, ih]

theorem alook_aupd_self (k : κ) (f : α → α) (l : List (κ × α)) :
    alook k (aupd k f l) = (alook k l).map f := by
  induction l with
  | nil => rfl
  | cons kv rest ih =>
    by_cases hk : kv.1 = k
    · rw [aupd, if_pos hk, alook, if_pos hk, alook, if_pos hk]
      rfl
    · rw [aupd, if_neg hk, alook, if_neg hk, alook, if_neg hk, ih]

theorem mem_aupd {k : κ} {f : α → α} {l : List (κ × α)} {e : κ × α}
    (h : e ∈ aupd k f l) :
    (e.1 = k ∧ ∃ v, (k, v) ∈ l ∧ e.2 = f v) ∨ (e ∈ l ∧ e.1 ≠ k) := by
  induction l with
  | nil => simp [aupd] at h
  | cons kv rest ih =>
    obtain ⟨k1, v1⟩ := kv
    by_cases hk : k1 = k
    · rw [aupd, if_pos hk] at h
      rcases List.mem_cons.mp h with h1 | h1
      · subst hk
        exact Or.inl ⟨by rw [h1], v1, List.mem_cons_self _ _, by rw [h1]⟩
      · rcases ih h1 with h2 | h2
        · exact Or.inl ⟨h2.1, h2.2.elim fun v hv => ⟨v, List.mem_cons_of_mem _ hv.1, hv.2⟩⟩
        · exact Or.inr ⟨List.mem_cons_of_mem _ h2.1, h2.2⟩
    · rw [aupd, if_neg hk] at h
      rcases List.mem_cons.mp h with h1 | h1
      · right
        refine ⟨List.mem_cons.mpr (Or.inl h1), ?_⟩
        rw [h1]
        exact hk
      · rcases ih h1 with h2 | h2
        · exact Or.inl ⟨h2.1, h2.2.elim fun v hv => ⟨v, List.mem_cons_of_mem _ hv.1, hv.2⟩⟩
        · exact Or.inr ⟨List.mem_cons_of_mem _ h2.1, h2.2⟩

theorem mem_aerase {k : κ} {l : List (κ × α)} {e : κ × α} :
    e ∈ aerase k l ↔ e ∈ l ∧ e.1 ≠ k := by
  induction l with
  | nil => simp [aerase]
  | cons kv rest ih =>
    by_cases hk : kv.1 = k
    · rw [aerase, if_pos hk, ih]
      constructor
      · exact fun h => ⟨List.mem_cons_of_mem _ h.1, h.2⟩
      · rintro ⟨h1, h2⟩
        rcases List.mem_cons.mp h1 with h3 | h3
        · exact absurd (h3 ▸ hk) h2
        · exact ⟨h3, h2⟩
    · rw [aerase, if_neg hk]
      constructor
      · intro h
        rcases List.mem_cons.mp h with h1 | h1
        · exact ⟨List.mem_cons.mpr (Or.inl h1), h1 ▸ hk⟩
        · exact ⟨List.mem_cons_of_mem _ (ih.mp h1).1, (ih.mp h1).2⟩
      · rintro ⟨h1, h2⟩
        rcases List.mem_cons.mp h1 with h3 | h3
        · exact List.mem_cons.mpr (Or.inl h3)
        · exact List.mem_cons_of_mem _ (ih.mpr ⟨h3, h2⟩)

theorem alook_aerase_self (k : κ) (l : List (κ × α)) :
    alook k (aerase k l) = none := by
  rw [alook_eq_none_iff]
  intro hmem
  rw [keys] at hmem
  obtain ⟨e, he, hek⟩ := List.mem_map.mp hmem
  exact (mem_aerase.mp he).2 hek

theorem alook_aerase_other {k k2 : κ} {l : List (κ × α)} (h : k2 ≠ k) :
    alook k2 (aerase k l) = alook k2 l := by
  induction l with
  | nil => rfl
  | cons kv rest ih =>
    by_cases hk : kv.1 = k
    · rw [aerase, if_pos hk, alook, if_neg (by rw [hk]; exact fun he => h he.symm), ih]
    · by_cases hk2 : kv.1 = k2
      · rw [aerase, if_neg hk, alook, if_pos hk2, alook, if_pos hk2]
      · rw [aerase, if_neg hk, alook, if_neg hk2, alook, if_neg hk2, ih]

theorem keys_aerase_sublist (k : κ) (l : List (κ × α)) :
    (keys (aerase k l)).Sublist (keys l) := by
  induction l with
  | nil => simp [aerase, keys]
  | cons kv rest ih =>
    by_cases hk : kv.1 = k
    · rw [aerase, if_pos hk]
      exact ih.trans (List.sublist_cons_self _ _)
    · rw [aerase, if_neg hk, keys, List.map_cons]
      exact List.Sublist.cons₂ _ ih

theorem nodup_keys_aerase {k : κ} {l : List (κ × α)}
    (h : (keys l).Nodup) : (keys (aerase k l)).Nodup :=
  (keys_aerase_sublist k l).nodup h

theorem nodup_keys_aupd {k : κ} {f : α → α} {l : List (κ × α)}
    (h : (keys l).Nodup) : (keys (aupd k f l)).Nodup := by
  rw [keys_aupd]
  exact h

end AList

/-! ## Server invariants -/

/-- No two distinct live (non-CLOSING) sessions hold the same
case-folded nickname, whether candidate or registered. -/
def NickUnique (srv : Server) : Prop :=
  ∀ e1 ∈ srv.sessions, ∀ e2 ∈ srv.sessions,
    e1.1 ≠ e2.1 → e1.2.state ≠ RegState.closing → e2.2.state ≠ RegState.closing →
    ∀ n1 n2, e1.2.nickname = some n1 → e2.2.nickname = some n2 →
    casefold n1 ≠ casefold n2

/-- Every REGISTERED session has both its nickname and its username
set. -/
def RegComplete (srv : Server) : Prop :=
  ∀ e ∈ srv.sessions, e.2.state = RegState.registered →
    e.2.nickname.isSome ∧ e.2.username.isSome

/-- Channel sanity: no channel in the registry is empty, member keys
are unique, and every member references a REGISTERED session. -/
def ChansOk (srv : Server) : Prop :=
  ∀ e ∈ srv.channels,
    e.2.members ≠ [] ∧ (keys e.2.members).Nodup ∧
    ∀ mem ∈ e.2.members, ∃ sess, alook mem.1 srv.sessions = some sess ∧
      sess.state = RegState.registered

/-- The server invariant, preserved by every operation. -/
def Inv (srv : Server) : Prop :=
  (keys srv.sessions).Nodup ∧ (keys srv.channels).Nodup ∧
    NickUnique srv ∧ RegComplete srv ∧ ChansOk srv

theorem nickTaken_false {srv : Server} {sid : Nat} {n : String}
    (h : nickTaken srv sid n = false) :
    ∀ e ∈ srv.sessions, e.1 ≠ sid → e.2.state ≠ RegState.closing →
      ∀ n2, e.2.nickname = some n2 → casefold n2 ≠ casefold n := by
  intro e he hne hnc n2 hn2 heq
  rw [nickTaken, List.any_eq_false] at h
  have h2 := h e he
  rw [hn2] at h2
  simp only [Bool.not_eq_true, Option.any_some, Bool.and_eq_false_iff] at h2
  rcases h2 with (h3 | h3) | h3
  · exact hne (by simpa using h3)
  · exact hnc (by simpa using h3)
  · exact absurd (by simpa using heq) (by simpa using h3)

/-- `updSession` leaves the channel registry untouched; member
references survive when the update preserves being REGISTERED. -/
theorem chansOk_updSession {srv : Server} {sid : Nat} {f : Session → Session}
    (hch : ChansOk srv)
    (hf : ∀ v, (sid, v) ∈ srv.sessions → v.state = RegState.registered →
      (f v).state = RegState.registered) :
    ChansOk (updSession srv sid f) := by
  intro e he
  obtain ⟨h1, h2, h3⟩ := hch e he
  refine ⟨h1, h2, ?_⟩
  intro mem hmem
  obtain ⟨sess, hs, hreg⟩ := h3 mem hmem
  by_cases hm : mem.1 = sid
  · subst hm
    refine ⟨f sess, ?_, hf sess (alook_mem hs) hreg⟩
    show alook mem.1 (aupd mem.1 f srv.sessions) = some (f sess)
    rw [alook_aupd_self, hs]
    rfl
  · refine ⟨sess, ?_, hreg⟩
    show alook mem.1 (aupd sid f srv.sessions) = some sess
    rw [alook_aupd_other f hm]
    exact hs

/-- Session updates that keep the nickname and do not resurrect a
CLOSING session preserve nickname uniqueness. -/
theorem nickUnique_updSession {srv : Server} {sid : Nat} {f : Session → Session}
    (hnu : NickUnique srv)
    (hnick : ∀ v, (sid, v) ∈ srv.sessions → (f v).nickname = v.nickname)
    (hcl : ∀ v, (sid, v) ∈ srv.sessions → (f v).state ≠ RegState.closing →
      v.state ≠ RegState.closing) :
    NickUnique (updSession srv sid f) := by
  intro e1 he1 e2 he2 hne hc1 hc2 n1 n2 hn1 hn2
  rcases mem_aupd he1 with ⟨hk1, v1, hv1, he1v⟩ | ⟨he1o, hk1⟩ <;>
    rcases mem_aupd he2 with ⟨hk2, v2, hv2, he2v⟩ | ⟨he2o, hk2⟩
  · exact absurd (hk1.trans hk2.symm) hne
  · refine hnu (sid, v1) hv1 e2 he2o ?_ ?_ hc2 n1 n2 ?_ hn2
    · rw [← hk1]
      exact hne
    · exact hcl v1 hv1 (he1v ▸ hc1)
    · rw [← hnick v1 hv1, ← he1v]
      exact hn1
  · refine hnu e1 he1o (sid, v2) hv2 ?_ hc1 ?_ n1 n2 hn1 ?_
    · rw [← hk2]
      exact hne
    · exact hcl v2 hv2 (he2v ▸ hc2)
    · rw [← hnick v2 hv2, ← he2v]
      exact hn2
  · exact hnu e1 he1o e2 he2o hne hc1 hc2 n1 n2 hn1 hn2

/-- Setting the nickname of `sid` to a nickname that the atomic
collision check reports free preserves nickname uniqueness. -/
theorem nickUnique_setNick {srv : Server} {sid : Nat} {n : String}
    {f : Session → Session}
    (hnu : NickUnique srv)
    (ht : nickTaken srv sid n = false)
    (hnick : ∀ s, (f s).nickname = some n)
    (hcl : ∀ v, (sid, v) ∈ srv.sessions → (f v).state ≠ RegState.closing →
      v.state ≠ RegState.closing) :
    NickUnique (updSession srv sid f) := by
  intro e1 he1 e2 he2 hne hc1 hc2 n1 n2 hn1 hn2
  rcases mem_aupd he1 with ⟨hk1, v1, hv1, he1v⟩ | ⟨he1o, hk1⟩ <;>
    rcases mem_aupd he2 with ⟨hk2, v2, hv2, he2v⟩ | ⟨he2o, hk2⟩
  · exact absurd (hk1.trans hk2.symm) hne
  · have hn1n : n1 = n := by
      have := hnick v1
      rw [← he1v, hn1] at this
      exact Option.some.inj this
    rw [hn1n]
    intro heq
    refine nickTaken_false ht e2 he2o ?_ hc2 n2 hn2 heq.symm
    rw [← hk1]
    exact fun he => hne he.symm
  · have hn2n : n2 = n := by
      have := hnick v2
      rw [← he2v, hn2] at this
      exact Option.some.inj this
    rw [hn2n]
    intro heq
    refine nickTaken_false ht e1 he1o ?_ hc1 n1 hn1 heq
    rw [← hk2]
    exact hne
  · exact hnu e1 he1o e2 he2o hne hc1 hc2 n1 n2 hn1 hn2

/-- RegComplete is preserved by an update whose result is complete
whenever it is REGISTERED. -/
theorem regComplete_updSession {srv : Server} {sid : Nat} {f : Session → Session}
    (hrc : RegComplete srv)
    (h : ∀ v, (sid, v) ∈ srv.sessions → (f v).state = RegState.registered →
      (f v).nickname.isSome ∧ (f v).username.isSome) :
    RegComplete (updSession srv sid f) := by
  intro e he hreg
  rcases mem_aupd he with ⟨hk1, v, hv, hev⟩ | ⟨heo, _⟩
  · rw [hev] at hreg ⊢
    exact h v hv hreg
  · exact hrc e heo hreg

theorem inv_acceptConn {srv : Server} {sid : Nat} (hinv : Inv srv)
    (h : alook sid srv.sessions = none) : Inv (acceptConn srv sid) := by
  obtain ⟨hs, hc, hnu, hrc, hch⟩ := hinv
  refine ⟨?_, hc, ?_, ?_, ?_⟩
  · show (keys ((sid, freshSession) :: srv.sessions)).Nodup
    rw [keys, List.map_cons]
    refine List.nodup_cons.mpr ⟨?_, hs⟩
    exact alook_eq_none_iff.mp h
  · intro e1 he1 e2 he2 hne hc1 hc2 n1 n2 hn1 hn2
    have hfresh : ∀ e : Nat × Session, e = (sid, freshSession) →
        ∀ nx : String, e.2.nickname = some nx → False := by
      rintro e rfl nx hnx
      exact Option.noConfusion hnx
    rcases List.mem_cons.mp he1 with h1 | h1
    · exact absurd hn1 (fun hx => hfresh e1 h1 n1 hx)
    · rcases List.mem_cons.mp he2 with h2 | h2
      · exact absurd hn2 (fun hx => hfresh e2 h2 n2 hx)
      · exact hnu e1 h1 e2 h2 hne hc1 hc2 n1 n2 hn1 hn2
  · intro e he hreg
    rcases List.mem_cons.mp he with h1 | h1
    · rw [h1] at hreg
      exact RegState.noConfusion hreg
    · exact hrc e h1 hreg
  · intro e he
    obtain ⟨h1, h2, h3⟩ := hch e he
    refine ⟨h1, h2, ?_⟩
    intro mem hmem
    obtain ⟨sess, hl, hreg⟩ := h3 mem hmem
    have hms : ¬(sid = mem.1) := by
      intro he2
      rw [← he2] at hl
      rw [h] at hl
      exact Option.noConfusion hl
    refine ⟨sess, ?_, hreg⟩
    show alook mem.1 ((sid, freshSession) :: srv.sessions) = some sess
    rw [alook, if_neg hms]
    exact hl

theorem inv_clientRegOnly {srv : Server} (reg2 : List (String × Nat))
    (hinv : Inv srv) : Inv { srv with clientReg := reg2 } := hinv

theorem inv_tryRegister {srv : Server} {sid : Nat} (hinv : Inv srv) :
    Inv (tryRegister srv sid).1 := by
  unfold tryRegister
  split
  · exact hinv
  next sess hlook =>
    split
    · exact hinv
    next n hnick =>
      split
      · exact hinv
      next u huser =>
        split
        next hst =>
          obtain ⟨hs, hc, hnu, hrc, hch⟩ := hinv
          have hv : ∀ v : Session, (sid, v) ∈ srv.sessions → v = sess := by
            intro v hvm
            have := mem_alook hs hvm
            rw [hlook] at this
            exact Option.some.inj this.symm
          refine ⟨?_, hc, ?_, ?_, ?_⟩
          · show (keys (aupd sid _ srv.sessions)).Nodup
            exact nodup_keys_aupd hs
          · refine nickUnique_updSession hnu (fun v _ => rfl) ?_
            intro v hvm _
            rw [hv v hvm, hst]
            exact fun hcl => RegState.noConfusion hcl
          · refine regComplete_updSession hrc ?_
            intro v hvm _
            rw [hv v hvm]
            constructor
            · show sess.nickname.isSome = true
              rw [hnick]
              rfl
            · show sess.username.isSome = true
              rw [huser]
              rfl
          · exact chansOk_updSession hch (fun v _ _ => rfl)
        next hst => exact hinv

theorem inv_handleNick {srv : Server} {sid : Nat} {sess : Session}
    {ps : List String} (hinv : Inv srv) :
    Inv (handleNick srv sid sess ps).1 := by
  unfold handleNick
  split
  · exact hinv
  next n rest =>
    split
    · exact hinv
    next ht =>
      have ht2 : nickTaken srv sid n = false := by simpa using ht
      split
      · -- UNREGISTERED: record candidate nickname, then try to register
        refine inv_tryRegister ?_
        obtain ⟨hs, hc, hnu, hrc, hch⟩ := hinv
        refine ⟨nodup_keys_aupd hs, hc, ?_, ?_, ?_⟩
        · exact nickUnique_setNick hnu ht2 (fun s => rfl) (fun v _ h => h)
        · refine regComplete_updSession hrc ?_
          intro v hvm hreg
          exact ⟨rfl, (hrc (sid, v) hvm hreg).2⟩
        · exact chansOk_updSession hch (fun v _ h => h)
      · -- REGISTERED: apply the nick change
        unfold nickChange
        obtain ⟨hs, hc, hnu, hrc, hch⟩ := hinv
        refine ⟨nodup_keys_aupd hs, hc, ?_, ?_, ?_⟩
        · exact nickUnique_setNick hnu ht2 (fun s => rfl) (fun v _ h => h)
        · refine regComplete_updSession hrc ?_
          intro v hvm hreg
          exact ⟨rfl, (hrc (sid, v) hvm hreg).2⟩
        · exact chansOk_updSession hch (fun v _ h => h)
      · exact hinv

theorem inv_handleUser {srv : Server} {sid : Nat} {sess : Session}
    {ps : List String} (hinv : Inv srv) :
    Inv (handleUser srv sid sess ps).1 := by
  unfold handleUser
  split
  next u x y r rest =>
    split
    · -- UNREGISTERED: record username/realname, then try to register
      refine inv_tryRegister ?_
      obtain ⟨hs, hc, hnu, hrc, hch⟩ := hinv
      refine ⟨nodup_keys_aupd hs, hc, ?_, ?_, ?_⟩
      · exact nickUnique_updSession hnu (fun v _ => rfl) (fun v _ h => h)
      · refine regComplete_updSession hrc ?_
        intro v hvm hreg
        exact ⟨(hrc (sid, v) hvm hreg).1, rfl⟩
      · exact chansOk_updSession hch (fun v _ h => h)
    · exact hinv
  · exact hinv

theorem keys_mapval {κ α : Type} (l : List (κ × α)) (g : κ × α → α) :
    keys (l.map (fun kv => (kv.1, g kv))) = keys l := by
  induction l with
  | nil => rfl
  | cons kv rest _ => simp [keys]

theorem keys_filter_sublist {κ α : Type} (p : κ × α → Bool) (l : List (κ × α)) :
    (keys (l.filter p)).Sublist (keys l) :=
  (List.filter_sublist l).map Prod.fst

/-- Updating a channel value without touching its membership preserves
the invariant. -/
theorem inv_chan_update {srv : Server} {key : String} {g : Channel → Channel}
    (hinv : Inv srv) (hg : ∀ c, (g c).members = c.members) :
    Inv { srv with channels := aupd key g srv.channels } := by
  obtain ⟨hs, hc, hnu, hrc, hch⟩ := hinv
  refine ⟨hs, nodup_keys_aupd hc, hnu, hrc, ?_⟩
  intro e he
  rcases mem_aupd he with ⟨hk, v, hv, hev⟩ | ⟨heo, _⟩
  · obtain ⟨h1, h2, h3⟩ := hch (key, v) hv
    rw [hev, hg v]
    exact ⟨h1, h2, h3⟩
  · exact hch e heo

/-- A registered-session reference survives a state-preserving session
update. -/
theorem ref_updSession {srv : Server} {sid : Nat} {f : Session → Session} {m : Nat}
    (hf : ∀ s, (f s).state = s.state)
    (h : ∃ s2, alook m srv.sessions = some s2 ∧ s2.state = RegState.registered) :
    ∃ s2, alook m (aupd sid f srv.sessions) = some s2 ∧
      s2.state = RegState.registered := by
  obtain ⟨s2, hs2, hreg2⟩ := h
  by_cases hms : m = sid
  · subst hms
    refine ⟨f s2, ?_, by rw [hf]; exact hreg2⟩
    rw [alook_aupd_self, hs2]
    rfl
  · exact ⟨s2, by rw [alook_aupd_other f hms]; exact hs2, hreg2⟩

theorem inv_joinNewChannel {srv : Server} {sid : Nat} {sess : Session} {ch : String}
    (hinv : Inv srv)
    (hlook : alook sid srv.sessions = some sess)
    (hreg : sess.state = RegState.registered)
    (hchan : alook (casefold ch) srv.channels = none) :
    Inv (joinNewChannel srv sid sess ch).1 := by
  obtain ⟨hs, hc, hnu, hrc, hch⟩ := hinv
  unfold joinNewChannel
  refine ⟨nodup_keys_aupd hs, ?_, ?_, ?_, ?_⟩
  · show (keys ((casefold ch, _) :: srv.channels)).Nodup
    rw [keys, List.map_cons]
    exact List.nodup_cons.mpr ⟨alook_eq_none_iff.mp hchan, hc⟩
  · exact nickUnique_updSession hnu (fun v _ => rfl) (fun v _ h => h)
  · exact regComplete_updSession hrc (fun v hvm hr => hrc (sid, v) hvm hr)
  · intro e he
    rcases List.mem_cons.mp he with h1 | h1
    · rw [h1]
      refine ⟨by simp [newChannel], by simp [newChannel, keys], ?_⟩
      intro mem hmem
      rw [show (newChannel sid ch).members =
        [(sid, { op := true, voice := false })] from rfl] at hmem
      have hm2 : mem = (sid, { op := true, voice := false }) :=
        List.mem_singleton.mp hmem
      rw [hm2]
      exact ref_updSession (fun s => rfl) ⟨sess, hlook, hreg⟩
    · obtain ⟨h1a, h2a, h3a⟩ := hch e h1
      exact ⟨h1a, h2a, fun mem hm => ref_updSession (fun s => rfl) (h3a mem hm)⟩

theorem inv_handleJoin {srv : Server} {sid : Nat} {sess : Session}
    {ps : List String} (hinv : Inv srv)
    (hlook : alook sid srv.sessions = some sess)
    (hreg : sess.state = RegState.registered) :
    Inv (handleJoin srv sid sess ps).1 := by
  unfold handleJoin
  split
  · exact hinv
  next ch rest =>
    split
    · exact hinv
    next hcn =>
      split
      next hchan => exact inv_joinNewChannel hinv hlook hreg hchan
      next c hchan =>
        split
        · exact hinv
        next hmem =>
          split
          · exact hinv
          split
          · exact hinv
          split
          · exact hinv
          -- add the member, broadcast afterwards
          obtain ⟨hs, hc, hnu, hrc, hch⟩ := hinv
          have hsidnot : sid ∉ keys c.members := by
            intro hin
            have : isMember c sid = true := by
              rw [isMember]
              cases hx : alook sid c.members with
              | none => exact absurd (alook_eq_none_iff.mp hx) (fun h => h hin)
              | some v => rfl
            exact hmem this
          refine ⟨nodup_keys_aupd hs, ?_, ?_, ?_, ?_⟩
          · show (keys (aupd (casefold ch) _ srv.channels)).Nodup
            exact nodup_keys_aupd hc
          · exact nickUnique_updSession hnu (fun v _ => rfl) (fun v _ h => h)
          · exact regComplete_updSession hrc (fun v hvm hr => hrc (sid, v) hvm hr)
          · intro e he
            rcases mem_aupd he with ⟨hk, v, hv, hev⟩ | ⟨heo, _⟩
            · have hvc : v = c := by
                have := mem_alook hc hv
                rw [hchan] at this
                exact Option.some.inj this.symm
              subst hvc
              obtain ⟨h1, h2, h3⟩ := hch (casefold ch, v) hv
              rw [hev]
              refine ⟨by simp, ?_, ?_⟩
              · show (keys (v.members ++ [(sid, _)])).Nodup
                rw [keys, List.map_append]
                rw [List.nodup_append]
                refine ⟨h2, List.nodup_singleton _, ?_⟩
                intro a ha hb
                have : a = sid := by simpa [keys] using hb
                exact hsidnot (this ▸ ha)
              · intro mem hmem2
                rcases List.mem_append.mp hmem2 with hm | hm
                · exact ref_updSession (fun s => rfl) (h3 mem hm)
                · have hm2 : mem = (sid, { op := false, voice := false }) :=
                    List.mem_singleton.mp hm
                  rw [hm2]
                  exact ref_updSession (fun s => rfl) ⟨sess, hlook, hreg⟩
            · obtain ⟨h1, h2, h3⟩ := hch e heo
              exact ⟨h1, h2, fun mem hm => ref_updSession (fun s => rfl) (h3 mem hm)⟩

theorem inv_removeMember {srv : Server} {key : String} {sid : Nat}
    (hinv : Inv srv) : Inv (removeMember srv key sid) := by
  obtain ⟨hs, hc, hnu, hrc, hch⟩ := hinv
  unfold removeMember
  split
  · exact ⟨hs, hc, hnu, hrc, hch⟩
  next c hchan =>
    by_cases hemp : aerase sid c.members = []
    · rw [if_pos hemp]
      refine ⟨nodup_keys_aupd hs, ?_, ?_, ?_, ?_⟩
      · show (keys (aerase key srv.channels)).Nodup
        exact nodup_keys_aerase hc
      · exact nickUnique_updSession hnu (fun v _ => rfl) (fun v _ h => h)
      · exact regComplete_updSession hrc (fun v hvm hr => hrc (sid, v) hvm hr)
      · intro e he
        have he2 := mem_aerase.mp he
        obtain ⟨h1, h2, h3⟩ := hch e he2.1
        exact ⟨h1, h2, fun mem hm => ref_updSession (fun s => rfl) (h3 mem hm)⟩
    · rw [if_neg hemp]
      refine ⟨nodup_keys_aupd hs, ?_, ?_, ?_, ?_⟩
      · show (keys (aupd key _ srv.channels)).Nodup
        exact nodup_keys_aupd hc
      · exact nickUnique_updSession hnu (fun v _ => rfl) (fun v _ h => h)
      · exact regComplete_updSession hrc (fun v hvm hr => hrc (sid, v) hvm hr)
      · intro e he
        rcases mem_aupd he with ⟨hk, v, hv, hev⟩ | ⟨heo, _⟩
        · have hvc : v = c := by
            have := mem_alook hc hv
            rw [hchan] at this
            exact Option.some.inj this.symm
          subst hvc
          obtain ⟨h1, h2, h3⟩ := hch (key, v) hv
          rw [hev]
          refine ⟨hemp, ?_, ?_⟩
          · exact (keys_aerase_sublist sid v.members).nodup h2
          · intro mem hm
            have hm2 := mem_aerase.mp hm
            exact ref_updSession (fun s => rfl) (h3 mem hm2.1)
        · obtain ⟨h1, h2, h3⟩ := hch e heo
          exact ⟨h1, h2, fun mem hm => ref_updSession (fun s => rfl) (h3 mem hm)⟩

theorem inv_handlePart {srv : Server} {sid : Nat} {sess : Session}
    {ps : List String} (hinv : Inv srv) :
    Inv (handlePart srv sid sess ps).1 := by
  unfold handlePart
  split
  · exact hinv
  next ch rest =>
    split
    · exact hinv
    next c hchan =>
      split
      · exact hinv
      next hmem => exact inv_removeMember hinv

theorem inv_handleKick {srv : Server} {sid : Nat} {sess : Session}
    {ps : List String} (hinv : Inv srv) :
    Inv (handleKick srv sid sess ps).1 := by
  unfold handleKick
  split
  next ch targetNick rest =>
    split
    · exact hinv
    next c hchan =>
      split
      · exact hinv
      split
      · exact hinv
      split
      · exact hinv
      next tsid hts =>
        split
        · exact hinv
        exact inv_removeMember hinv
  · exact hinv

theorem inv_quitCleanup {srv : Server} {sid : Nat} {reason : String}
    (hinv : Inv srv) : Inv (quitCleanup srv sid reason).1 := by
  obtain ⟨hs, hc, hnu, hrc, hch⟩ := hinv
  unfold quitCleanup
  split
  · exact ⟨hs, hc, hnu, hrc, hch⟩
  next sess hlook =>
    split
    · exact ⟨hs, hc, hnu, hrc, hch⟩
    next hncl =>
      refine ⟨nodup_keys_aupd hs, ?_, ?_, ?_, ?_⟩
      · refine ((keys_filter_sublist _ _).nodup ?_)
        rw [keys_mapval]
        exact hc
      · refine nickUnique_updSession hnu (fun v _ => rfl) ?_
        intro v _ hv2
        exact absurd rfl hv2
      · refine regComplete_updSession hrc ?_
        intro v _ hv2
        exact absurd hv2 (by exact fun hx => RegState.noConfusion hx)
      · intro e he
        have he1 := List.mem_filter.mp he
        obtain ⟨a, ha, hae⟩ := List.mem_map.mp he1.1
        obtain ⟨h1, h2, h3⟩ := hch a ha
        refine ⟨?_, ?_, ?_⟩
        · intro h0
          have := he1.2
          rw [h0] at this
          simp [List.isEmpty] at this
        · rw [← hae]
          exact (keys_aerase_sublist sid a.2.members).nodup h2
        · intro mem hm
          rw [← hae] at hm
          have hm2 := mem_aerase.mp hm
          obtain ⟨s2, hs2, hreg2⟩ := h3 mem hm2.1
          refine ⟨s2, ?_, hreg2⟩
          show alook mem.1 (aupd sid _ srv.sessions) = some s2
          rw [alook_aupd_other _ hm2.2]
          exact hs2

theorem inv_handleTopic {srv : Server} {sid : Nat} {sess : Session}
    {ps : List String} (hinv : Inv srv) :
    Inv (handleTopic srv sid sess ps).1 := by
  unfold handleTopic
  split
  · exact hinv
  next ch rest =>
    split
    · exact hinv
    next c hchan =>
      split
      · exact hinv
      next hmem =>
        split
        · split
          · exact hinv
          · exact hinv
        next t more =>
          split
          · exact hinv
          · exact inv_chan_update hinv (fun c2 => rfl)

theorem inv_handleMode {srv : Server} {sid : Nat} {sess : Session}
    {ps : List String} (hinv : Inv srv) :
    Inv (handleMode srv sid sess ps).1 := by
  unfold handleMode
  split
  next ch ms rest =>
    split
    · exact hinv
    next c hchan =>
      split
      · exact hinv
      next hop =>
        split
        · exact hinv
        next sign letters =>
          split
          · exact hinv
          next hsign =>
            split
            · exact hinv
            · exact inv_chan_update hinv (fun c2 => rfl)
  · exact hinv

theorem fst_handleMsgCmd (srv : Server) (sid : Nat) (sess : Session)
    (isNotice : Bool) (ps : List String) :
    (handleMsgCmd srv sid sess isNotice ps).1 = srv := by
  unfold handleMsgCmd
  repeat' split
  all_goals rfl

theorem fst_handleNames (srv : Server) (sid : Nat) (ps : List String) :
    (handleNames srv sid ps).1 = srv := by
  unfold handleNames
  repeat' split
  all_goals rfl

theorem fst_handleWho (srv : Server) (sid : Nat) (ps : List String) :
    (handleWho srv sid ps).1 = srv := rfl

theorem fst_handlePing (srv : Server) (sid : Nat) (ps : List String) :
    (handlePing srv sid ps).1 = srv := by
  unfold handlePing
  repeat' split
  all_goals rfl

theorem inv_dispatchCmd {srv : Server} {sid : Nat} {sess : Session}
    {cmd : String} {ps : List String} (hinv : Inv srv)
    (hlook : alook sid srv.sessions = some sess) :
    Inv (dispatchCmd srv sid sess cmd ps).1 := by
  unfold dispatchCmd
  by_cases h1 : ¬knownCommands.contains cmd = true
  · rw [if_pos h1]
    exact hinv
  rw [if_neg h1]
  by_cases h2 : (requiresRegistration cmd &&
      decide (sess.state ≠ RegState.registered)) = true
  · rw [if_pos h2]
    exact hinv
  rw [if_neg h2]
  by_cases h3 : ps.length < minParams cmd
  · rw [if_pos h3]
    exact hinv
  rw [if_neg h3]
  by_cases hc1 : cmd = "NICK"
  · rw [if_pos hc1]
    exact inv_handleNick hinv
  rw [if_neg hc1]
  by_cases hc2 : cmd = "USER"
  · rw [if_pos hc2]
    exact inv_handleUser hinv
  rw [if_neg hc2]
  by_cases hc3 : cmd = "JOIN"
  · rw [if_pos hc3]
    have hregs : sess.state = RegState.registered := by
      by_contra hx
      refine h2 ?_
      rw [hc3]
      rw [show requiresRegistration "JOIN" = true from by decide]
      simp [hx]
    exact inv_handleJoin hinv hlook hregs
  rw [if_neg hc3]
  by_cases hc4 : cmd = "PART"
  · rw [if_pos hc4]
    exact inv_handlePart hinv
  rw [if_neg hc4]
  by_cases hc5 : cmd = "PRIVMSG"
  · rw [if_pos hc5, fst_handleMsgCmd]
    exact hinv
  rw [if_neg hc5]
  by_cases hc6 : cmd = "NOTICE"
  · rw [if_pos hc6, fst_handleMsgCmd]
    exact hinv
  rw [if_neg hc6]
  by_cases hc7 : cmd = "KICK"
  · rw [if_pos hc7]
    exact inv_handleKick hinv
  rw [if_neg hc7]
  by_cases hc8 : cmd = "TOPIC"
  · rw [if_pos hc8]
    exact inv_handleTopic hinv
  rw [if_neg hc8]
  by_cases hc9 : cmd = "MODE"
  · rw [if_pos hc9]
    exact inv_handleMode hinv
  rw [if_neg hc9]
  by_cases hc10 : cmd = "QUIT"
  · rw [if_pos hc10]
    exact inv_quitCleanup hinv
  rw [if_neg hc10]
  by_cases hc11 : cmd = "PING"
  · rw [if_pos hc11, fst_handlePing]
    exact hinv
  rw [if_neg hc11]
  by_cases hc12 : cmd = "NAMES"
  · rw [if_pos hc12, fst_handleNames]
    exact hinv
  rw [if_neg hc12]
  by_cases hc13 : cmd = "WHO"
  · rw [if_pos hc13, fst_handleWho]
    exact hinv
  rw [if_neg hc13]
  by_cases hc14 : cmd = "MOTD"
  · rw [if_pos hc14]
    exact hinv
  rw [if_neg hc14]
  exact hinv

theorem inv_dispatch {srv : Server} {sid : Nat} {m : Message} (hinv : Inv srv) :
    Inv (dispatch srv sid m).1 := by
  unfold dispatch
  split
  · exact hinv
  next sess hlook => exact inv_dispatchCmd hinv hlook

theorem inv_processMessage {srv : Server} {sid : Nat} {m : Message}
    (hinv : Inv srv) : Inv (processMessage srv sid m).1 := by
  unfold processMessage
  split
  · exact hinv
  next sess hlook =>
    split
    · exact hinv
    · exact inv_dispatch hinv

theorem inv_init (name : String) (motd : List String) :
    Inv (Server.init name motd) :=
  ⟨List.nodup_nil, List.nodup_nil,
   fun e1 he1 => absurd he1 (List.not_mem_nil e1),
   fun e he => absurd he (List.not_mem_nil e),
   fun e he => absurd he (List.not_mem_nil e)⟩

theorem inv_step {s s2 : Server} (hinv : Inv s) (hstep : Step s s2) : Inv s2 := by
  cases hstep with
  | accept sid h => exact inv_acceptConn hinv h
  | msg sid m => exact inv_processMessage hinv
  | lost sid => exact inv_quitCleanup hinv

/-- Every reachable server state satisfies the invariant. -/
theorem reachable_inv {srv : Server} (h : Reachable srv) : Inv srv := by
  induction h with
  | init name motd => exact inv_init name motd
  | step hr hs ih => exact inv_step ih hs

/-! ## Stepping lemmas for command processing -/

/-- The wire message for a JOIN command. -/
def joinCmd (ch : String) : Message :=
  { origin := none, command := "JOIN", params := [ch] }

/-- The wire message for a PART command. -/
def partCmd (ch : String) : Message :=
  { origin := none, command := "PART", params := [ch] }

/-- The wire message for a PRIVMSG command. -/
def privCmd (target text : String) : Message :=
  { origin := none, command := "PRIVMSG", params := [target, text] }

theorem processMessage_eq {srv : Server} {sid : Nat} {sess : Session}
    (m : Message) (hlook : alook sid srv.sessions = some sess)
    (hncl : ¬sess.state = RegState.closing) :
    processMessage srv sid m = dispatch srv sid m := by
  unfold processMessage
  split
  next h0 =>
    rw [h0] at hlook
    exact Option.noConfusion hlook
  next sess2 hlook2 =>
    rw [hlook] at hlook2
    injection hlook2 with he
    subst he
    rw [if_neg hncl]

theorem dispatch_eq {srv : Server} {sid : Nat} {sess : Session}
    (m : Message) (hlook : alook sid srv.sessions = some sess) :
    dispatch srv sid m = dispatchCmd srv sid sess (upCase m.command) m.params := by
  unfold dispatch
  split
  next h0 =>
    rw [h0] at hlook
    exact Option.noConfusion hlook
  next sess2 hlook2 =>
    rw [hlook] at hlook2
    injection hlook2 with he
    subst he
    rfl

theorem dispatchCmd_join {srv : Server} {sid : Nat} {sess : Session} (ch : String)
    (hreg : sess.state = RegState.registered) :
    dispatchCmd srv sid sess "JOIN" [ch] = handleJoin srv sid sess [ch] := by
  unfold dispatchCmd
  have hlen : ¬([ch].length < minParams "JOIN") := fun hx => Nat.lt_irrefl 1 hx
  rw [if_neg (by decide)]
  rw [if_neg (by simp [hreg])]
  rw [if_neg hlen]
  rw [if_neg (by decide), if_neg (by decide), if_pos rfl]

theorem dispatchCmd_part {srv : Server} {sid : Nat} {sess : Session} (ch : String)
    (hreg : sess.state = RegState.registered) :
    dispatchCmd srv sid sess "PART" [ch] = handlePart srv sid sess [ch] := by
  unfold dispatchCmd
  have hlen : ¬([ch].length < minParams "PART") := fun hx => Nat.lt_irrefl 1 hx
  rw [if_neg (by decide)]
  rw [if_neg (by simp [hreg])]
  rw [if_neg hlen]
  rw [if_neg (by decide), if_neg (by decide), if_neg (by decide),
    if_pos rfl]

theorem dispatchCmd_privmsg {srv : Server} {sid : Nat} {sess : Session}
    (target text : String) (hreg : sess.state = RegState.registered) :
    dispatchCmd srv sid sess "PRIVMSG" [target, text] =
      handleMsgCmd srv sid sess false [target, text] := by
  unfold dispatchCmd
  have hlen : ¬([target, text].length < minParams "PRIVMSG") :=
    fun hx => Nat.lt_irrefl 2 hx
  rw [if_neg (by decide)]
  rw [if_neg (by simp [hreg])]
  rw [if_neg hlen]
  rw [if_neg (by decide), if_neg (by decide), if_neg (by decide),
    if_neg (by decide), if_pos rfl]

theorem handleJoin_new {srv : Server} {sid : Nat} {sess : Session} {ch : String}
    (hcn : isChannelName ch = true)
    (hchan : alook (casefold ch) srv.channels = none) :
    handleJoin srv sid sess [ch] = joinNewChannel srv sid sess ch := by
  simp only [handleJoin]
  have hcn2 : ¬¬(isChannelName ch = true) := fun hx => hx hcn
  rw [if_neg hcn2]
  split
  next => rfl
  next c h0 =>
    rw [hchan] at h0
    exact Option.noConfusion h0

theorem handlePart_fst {srv : Server} {sid : Nat} {sess : Session}
    {ch : String} {c : Channel}
    (hchan : alook (casefold ch) srv.channels = some c)
    (hmem : isMember c sid = true) :
    (handlePart srv sid sess [ch]).1 = removeMember srv (casefold ch) sid := by
  simp only [handlePart]
  split
  next h0 =>
    rw [hchan] at h0
    exact Option.noConfusion h0
  next c2 h0 =>
    rw [hchan] at h0
    injection h0 with he
    subst he
    rw [if_neg (fun hx => hx hmem)]

theorem removeMember_last {srv : Server} {key : String} {sid : Nat} {c : Channel}
    (hchan : alook key srv.channels = some c)
    (hlast : aerase sid c.members = []) :
    alook key (removeMember srv key sid).channels = none := by
  unfold removeMember
  split
  next h0 =>
    rw [hchan] at h0
    exact Option.noConfusion h0
  next c2 h0 =>
    rw [hchan] at h0
    injection h0 with he
    subst he
    rw [if_pos hlast]
    exact alook_aerase_self key srv.channels

/-! ## Claim theorems: invariants C1 and C3 -/

/-- C1: at every reachable state of the server, for every case-folded
nickname there is at most one REGISTERED session holding it; the
invariant is preserved by every operation, including any sequence of
NICK claims issued by distinct sessions, because it holds in every
reachable state. -/
theorem c1_registered_nick_unique (srv : Server) (h : Reachable srv)
    (sid1 sid2 : Nat) (s1 s2 : Session) (n1 n2 : String)
    (h1 : alook sid1 srv.sessions = some s1)
    (h2 : alook sid2 srv.sessions = some s2)
    (hr1 : s1.state = RegState.registered) (hr2 : s2.state = RegState.registered)
    (hn1 : s1.nickname = some n1) (hn2 : s2.nickname = some n2)
    (heq : casefold n1 = casefold n2) : sid1 = sid2 := by
  obtain ⟨_, _, hnu, _, _⟩ := reachable_inv h
  by_contra hne
  exact hnu (sid1, s1) (alook_mem h1) (sid2, s2) (alook_mem h2) hne
    (by rw [hr1]; exact fun hx => RegState.noConfusion hx)
    (by rw [hr2]; exact fun hx => RegState.noConfusion hx)
    n1 n2 hn1 hn2 heq

/-- C3: no reachable state contains a channel with zero members, and a
JOIN immediately followed by a PART by the same sole member leaves the
channel absent from the Channel Registry. -/
theorem c3_no_empty_channels :
    (∀ srv : Server, Reachable srv → ∀ e ∈ srv.channels, e.2.members ≠ []) ∧
    (∀ (srv : Server) (sid : Nat) (sess : Session) (ch : String),
      alook sid srv.sessions = some sess →
      sess.state = RegState.registered →
      isChannelName ch = true →
      alook (casefold ch) srv.channels = none →
      alook (casefold ch)
        (processMessage (processMessage srv sid (joinCmd ch)).1 sid
          (partCmd ch)).1.channels = none) := by
  constructor
  · intro srv hr e he
    exact ((reachable_inv hr).2.2.2.2 e he).1
  · intro srv sid sess ch hlook hreg hcn hchan
    have hncl : ¬sess.state = RegState.closing := by
      rw [hreg]
      exact fun hx => RegState.noConfusion hx
    have h1 : processMessage srv sid (joinCmd ch) = joinNewChannel srv sid sess ch := by
      rw [processMessage_eq _ hlook hncl, dispatch_eq _ hlook]
      rw [show upCase (joinCmd ch).command = "JOIN" from rfl]
      rw [show (joinCmd ch).params = [ch] from rfl]
      rw [dispatchCmd_join ch hreg]
      exact handleJoin_new hcn hchan
    rw [h1]
    have hlook2 : alook sid (joinNewChannel srv sid sess ch).1.sessions =
        some { sess with channels := casefold ch :: sess.channels } := by
      show alook sid (aupd sid _ srv.sessions) = _
      rw [alook_aupd_self, hlook]
      rfl
    have hchan2 : alook (casefold ch) (joinNewChannel srv sid sess ch).1.channels =
        some (newChannel sid ch) := by
      show alook (casefold ch) ((casefold ch, newChannel sid ch) :: srv.channels) = _
      rw [alook, if_pos rfl]
    have hmem2 : isMember (newChannel sid ch) sid = true := by
      simp [isMember, newChannel, alook]
    have hncl2 : ¬({ sess with channels := casefold ch :: sess.channels } :
        Session).state = RegState.closing := hncl
    have h2 : processMessage (joinNewChannel srv sid sess ch).1 sid (partCmd ch) =
        handlePart (joinNewChannel srv sid sess ch).1 sid
          { sess with channels := casefold ch :: sess.channels } [ch] := by
      rw [processMessage_eq _ hlook2 hncl2, dispatch_eq _ hlook2]
      rw [show upCase (partCmd ch).command = "PART" from rfl]
      rw [show (partCmd ch).params = [ch] from rfl]
      exact dispatchCmd_part ch hreg
    rw [h2, handlePart_fst hchan2 hmem2]
    refine removeMember_last hchan2 ?_
    simp [newChannel, aerase]

/-! ## Concrete demonstration states -/

/-- The wire message for a NICK command. -/
def nickMsg (n : String) : Message :=
  { origin := none, command := "NICK", params := [n] }

/-- The wire message for a USER command. -/
def userMsg (u r : String) : Message :=
  { origin := none, command := "USER", params := [u, "0", "*", r] }

def demo0 : Server := Server.init "irc.example.com" ["Stay a while"]

def demo1 : Server := acceptConn demo0 0

def demo2 : Server := (processMessage demo1 0 (nickMsg "Alice")).1

def demo3 : Server := (processMessage demo2 0 (userMsg "alice" "Alice")).1

def demo4 : Server := (processMessage demo3 0 (joinCmd "#test")).1

theorem reachable_demo3 : Reachable demo3 :=
  Reachable.step (Reachable.step (Reachable.step
    (Reachable.init "irc.example.com" ["Stay a while"])
    (Step.accept demo0 0 rfl))
    (Step.msg demo1 0 (nickMsg "Alice")))
    (Step.msg demo2 0 (userMsg "alice" "Alice"))

theorem reachable_demo4 : Reachable demo4 :=
  Reachable.step reachable_demo3 (Step.msg demo3 0 (joinCmd "#test"))

/-- The session of connection 0 in `demo3`. -/
def demoSess : Session :=
  { state := RegState.registered, nickname := some "Alice"
    username := some "alice", realname := some "Alice"
    hostname := "localhost", modes := [], channels := [] }

theorem c1_witness : (0 : Nat) = 0 :=
  c1_registered_nick_unique demo3 reachable_demo3 0 0 demoSess demoSess
    "Alice" "Alice" (by decide) (by decide) rfl rfl rfl rfl rfl

theorem c3_witness :
    (∀ e ∈ demo4.channels, e.2.members ≠ []) ∧
    alook (casefold "#test")
      (processMessage (processMessage demo3 0 (joinCmd "#test")).1 0
        (partCmd "#test")).1.channels = none :=
  ⟨c3_no_empty_channels.1 demo4 reachable_demo4,
   c3_no_empty_channels.2 demo3 0 demoSess "#test" (by decide) rfl (by decide)
     (by decide)⟩

/-! ## Claim C4: the registration transition -/

theorem tryRegister_fires {srv : Server} {sid : Nat} {sess : Session} {n u : String}
    (hlook : alook sid srv.sessions = some sess)
    (hnick : sess.nickname = some n)
    (husr : sess.username = some u)
    (hst : sess.state = RegState.unregistered) :
    tryRegister srv sid =
      (let srv3 : Server := { srv with
        sessions := aupd sid (fun s => { s with state := RegState.registered })
          srv.sessions
        clientReg := (casefold n, sid) :: srv.clientReg }
       (srv3, welcomeOutputs srv3 sid n)) := by
  unfold tryRegister
  split
  next h0 =>
    rw [h0] at hlook
    exact Option.noConfusion hlook
  next sess2 h0 =>
    rw [hlook] at h0
    injection h0 with he
    subst he
    split
    next h1 =>
      rw [hnick] at h1
      exact Option.noConfusion h1
    next n2 h1 =>
      rw [hnick] at h1
      injection h1 with he2
      subst he2
      split
      next h2 =>
        rw [husr] at h2
        exact Option.noConfusion h2
      next u2 h2 =>
        rw [if_pos hst]
        rfl

theorem tryRegister_nouser {srv : Server} {sid : Nat} {sess : Session}
    (hlook : alook sid srv.sessions = some sess)
    (husr : sess.username = none) :
    tryRegister srv sid = (srv, []) := by
  unfold tryRegister
  split
  next h0 => rfl
  next sess2 h0 =>
    rw [hlook] at h0
    injection h0 with he
    subst he
    split
    · rfl
    next n2 h1 =>
      split
      next => rfl
      next u2 h2 =>
        rw [husr] at h2
        exact Option.noConfusion h2

theorem tryRegister_nonick {srv : Server} {sid : Nat} {sess : Session}
    (hlook : alook sid srv.sessions = some sess)
    (hnick : sess.nickname = none) :
    tryRegister srv sid = (srv, []) := by
  unfold tryRegister
  split
  next h0 => rfl
  next sess2 h0 =>
    rw [hlook] at h0
    injection h0 with he
    subst he
    split
    · rfl
    next n2 h1 =>
      rw [hnick] at h1
      exact Option.noConfusion h1

/-- C4: a session is REGISTERED only with nickname and username both
set (every reachable state); the transition fires exactly when both
become set — NICK completing the pair registers and emits the welcome
numerics and MOTD, NICK without a username does not register, USER
completing the pair registers, USER without a nickname does not
register — and at the transition the session enters the Client
Registry. -/
theorem c4_registration_exact :
    (∀ srv : Server, Reachable srv → ∀ e ∈ srv.sessions,
      e.2.state = RegState.registered →
      e.2.nickname.isSome ∧ e.2.username.isSome) ∧
    (∀ (srv : Server) (sid : Nat) (sess : Session) (n : String),
      alook sid srv.sessions = some sess →
      sess.state = RegState.unregistered →
      sess.username.isSome →
      nickTaken srv sid n = false →
      ∃ srv3 : Server,
        handleNick srv sid sess [n] = (srv3, welcomeOutputs srv3 sid n) ∧
        alook (casefold n) srv3.clientReg = some sid ∧
        ∃ sess2, alook sid srv3.sessions = some sess2 ∧
          sess2.state = RegState.registered) ∧
    (∀ (srv : Server) (sid : Nat) (sess : Session) (n : String),
      alook sid srv.sessions = some sess →
      sess.state = RegState.unregistered →
      sess.username = none →
      nickTaken srv sid n = false →
      (handleNick srv sid sess [n]).2 = [] ∧
      (handleNick srv sid sess [n]).1.clientReg = srv.clientReg ∧
      ∃ sess2, alook sid (handleNick srv sid sess [n]).1.sessions = some sess2 ∧
        sess2.state = RegState.unregistered) ∧
    (∀ (srv : Server) (sid : Nat) (sess : Session) (u p1 p2 r n0 : String),
      alook sid srv.sessions = some sess →
      sess.state = RegState.unregistered →
      sess.nickname = some n0 →
      ∃ srv3 : Server,
        handleUser srv sid sess [u, p1, p2, r] =
          (srv3, welcomeOutputs srv3 sid n0) ∧
        alook (casefold n0) srv3.clientReg = some sid ∧
        ∃ sess2, alook sid srv3.sessions = some sess2 ∧
          sess2.state = RegState.registered) ∧
    (∀ (srv : Server) (sid : Nat) (sess : Session) (u p1 p2 r : String),
      alook sid srv.sessions = some sess →
      sess.state = RegState.unregistered →
      sess.nickname = none →
      (handleUser srv sid sess [u, p1, p2, r]).2 = [] ∧
      (handleUser srv sid sess [u, p1, p2, r]).1.clientReg = srv.clientReg ∧
      ∃ sess2,
        alook sid (handleUser srv sid sess [u, p1, p2, r]).1.sessions = some sess2 ∧
        sess2.state = RegState.unregistered) := by
  refine ⟨?_, ?_, ?_, ?_, ?_⟩
  · intro srv hr e he hreg
    exact (reachable_inv hr).2.2.2.1 e he hreg
  · intro srv sid sess n hlook hst husr ht
    obtain ⟨u, hu⟩ := Option.isSome_iff_exists.mp husr
    have hred : handleNick srv sid sess [n] =
        tryRegister (updSession srv sid (fun s => { s with nickname := some n })) sid := by
      simp only [handleNick]
      rw [if_neg (fun hx => Bool.false_ne_true (ht.symm.trans hx))]
      rw [hst]
    have hlook2 : alook sid
        (updSession srv sid (fun s => { s with nickname := some n })).sessions =
        some { sess with nickname := some n } := by
      show alook sid (aupd sid _ srv.sessions) = _
      rw [alook_aupd_self, hlook]
      rfl
    rw [hred, tryRegister_fires hlook2 rfl hu hst]
    refine ⟨_, rfl, ?_, ?_⟩
    · show alook (casefold n) ((casefold n, sid) :: _) = some sid
      rw [alook, if_pos rfl]
    · refine ⟨{ sess with nickname := some n, state := RegState.registered },
        ?_, rfl⟩
      show alook sid (aupd sid _ (aupd sid _ srv.sessions)) = _
      rw [alook_aupd_self, alook_aupd_self, hlook]
      rfl
  · intro srv sid sess n hlook hst husr ht
    have hred : handleNick srv sid sess [n] =
        tryRegister (updSession srv sid (fun s => { s with nickname := some n })) sid := by
      simp only [handleNick]
      rw [if_neg (fun hx => Bool.false_ne_true (ht.symm.trans hx))]
      rw [hst]
    have hlook2 : alook sid
        (updSession srv sid (fun s => { s with nickname := some n })).sessions =
        some { sess with nickname := some n } := by
      show alook sid (aupd sid _ srv.sessions) = _
      rw [alook_aupd_self, hlook]
      rfl
    rw [hred, tryRegister_nouser hlook2 husr]
    exact ⟨rfl, rfl, { sess with nickname := some n }, hlook2, hst⟩
  · intro srv sid sess u p1 p2 r n0 hlook hst hn0
    have hred : handleUser srv sid sess [u, p1, p2, r] =
        tryRegister (updSession srv sid
          (fun s => { s with username := some u, realname := some r })) sid := by
      simp only [handleUser]
      rw [hst]
    have hlook2 : alook sid (updSession srv sid
        (fun s => { s with username := some u, realname := some r })).sessions =
        some { sess with username := some u, realname := some r } := by
      show alook sid (aupd sid _ srv.sessions) = _
      rw [alook_aupd_self, hlook]
      rfl
    rw [hred, tryRegister_fires hlook2 hn0 rfl hst]
    refine ⟨_, rfl, ?_, ?_⟩
    · show alook (casefold n0) ((casefold n0, sid) :: _) = some sid
      rw [alook, if_pos rfl]
    · refine
        ⟨{ sess with username := some u, realname := some r, state := RegState.registered },
          ?_, rfl⟩
      show alook sid (aupd sid _ (aupd sid _ srv.sessions)) = _
      rw [alook_aupd_self, alook_aupd_self, hlook]
      rfl
  · intro srv sid sess u p1 p2 r hlook hst hn0
    have hred : handleUser srv sid sess [u, p1, p2, r] =
        tryRegister (updSession srv sid
          (fun s => { s with username := some u, realname := some r })) sid := by
      simp only [handleUser]
      rw [hst]
    have hlook2 : alook sid (updSession srv sid
        (fun s => { s with username := some u, realname := some r })).sessions =
        some { sess with username := some u, realname := some r } := by
      show alook sid (aupd sid _ srv.sessions) = _
      rw [alook_aupd_self, hlook]
      rfl
    rw [hred, tryRegister_nonick hlook2 hn0]
    exact ⟨rfl, rfl, { sess with username := some u, realname := some r },
      hlook2, hst⟩

/-- A fresh connection that sends USER before NICK. -/
def demoB1 : Server := acceptConn demo0 0

def demoB2 : Server := (processMessage demoB1 0 (userMsg "carol" "Carol")).1

/-- Session 0 of `demoB2`: username recorded, no nickname yet. -/
def demoB2sess : Session :=
  { state := RegState.unregistered, nickname := none
    username := some "carol", realname := some "Carol"
    hostname := "localhost", modes := [], channels := [] }

theorem c4_witness :
    (demoSess.nickname.isSome ∧ demoSess.username.isSome) ∧
    ∃ srv3 : Server,
      handleNick demoB2 0 demoB2sess ["Carol"] =
        (srv3, welcomeOutputs srv3 0 "Carol") ∧
      alook (casefold "Carol") srv3.clientReg = some 0 ∧
      ∃ sess2, alook 0 srv3.sessions = some sess2 ∧
        sess2.state = RegState.registered :=
  ⟨c4_registration_exact.1 demo3 reachable_demo3 (0, demoSess) (by decide) rfl,
   c4_registration_exact.2.1 demoB2 0 demoB2sess "Carol" (by decide) rfl
     (by decide) (by decide)⟩

/-! ## Claim C2: PRIVMSG delivery -/

/-- C2: when a PRIVMSG is sent to a channel, every member at that
moment except the sender receives exactly one copy, and the sender
receives zero copies. -/
theorem c2_privmsg_exactly_once (srv : Server) (h : Reachable srv)
    (sid : Nat) (sess : Session) (ch text : String) (c : Channel)
    (hlook : alook sid srv.sessions = some sess)
    (hreg : sess.state = RegState.registered)
    (hcn : isChannelName ch = true)
    (hchan : alook (casefold ch) srv.channels = some c)
    (hsend : isMember c sid = true ∨ c.modes.noExternal = false) :
    (∀ o ∈ (processMessage srv sid (privCmd ch text)).2,
      o.2.command = "PRIVMSG" ∧ o.2.params = [ch, text]) ∧
    ∀ t : Nat,
      ((processMessage srv sid (privCmd ch text)).2.map Prod.fst).count t =
        if t ∈ memberIds c ∧ t ≠ sid then 1 else 0 := by
  have hchfact := (reachable_inv h).2.2.2.2 (casefold ch, c) (alook_mem hchan)
  have hnodup : (memberIds c).Nodup := hchfact.2.1
  have hnclm : ∀ t ∈ memberIds c, notClosing srv t = true := by
    intro t ht
    obtain ⟨mem, hmem, hfst⟩ := List.mem_map.mp ht
    obtain ⟨s2, hs2, hreg2⟩ := hchfact.2.2 mem hmem
    subst hfst
    unfold notClosing
    rw [hs2]
    simp [hreg2]
  have hout : (processMessage srv sid (privCmd ch text)).2 =
      route srv ((memberIds c).filter (fun x => x != sid))
        { origin := some (userPrefix sess), command := "PRIVMSG"
          params := [ch, text] } := by
    have hncl0 : ¬sess.state = RegState.closing := by
      rw [hreg]
      exact fun hx => RegState.noConfusion hx
    rw [processMessage_eq _ hlook hncl0, dispatch_eq _ hlook]
    rw [show upCase (privCmd ch text).command = "PRIVMSG" from rfl]
    rw [show (privCmd ch text).params = [ch, text] from rfl]
    rw [dispatchCmd_privmsg ch text hreg]
    simp only [handleMsgCmd]
    rw [if_pos hcn]
    split
    next h0 =>
      rw [hchan] at h0
      exact Option.noConfusion h0
    next c2 h0 =>
      rw [hchan] at h0
      injection h0 with he
      subst he
      have hcond : (!isMember c sid && c.modes.noExternal) = false := by
        rcases hsend with hx | hx
        · rw [hx]
          rfl
        · rw [hx]
          simp
      rw [if_neg (fun hx => Bool.false_ne_true (hcond.symm.trans hx))]
      rfl
  have hAll : ((memberIds c).filter (fun x => x != sid)).filter (notClosing srv) =
      (memberIds c).filter (fun x => x != sid) := by
    rw [List.filter_eq_self]
    intro a ha
    exact hnclm a (List.mem_filter.mp ha).1
  constructor
  · intro o ho
    rw [hout] at ho
    unfold route at ho
    obtain ⟨t, ht, hto⟩ := List.mem_map.mp ho
    rw [← hto]
    exact ⟨rfl, rfl⟩
  · intro t
    rw [hout]
    unfold route
    rw [hAll]
    rw [List.map_map]
    rw [show (Prod.fst ∘ fun x => ((x : Nat),
      ({ origin := some (userPrefix sess), command := "PRIVMSG"
         params := [ch, text] } : Message))) = fun x => x from rfl]
    rw [List.map_id']
    by_cases hts : t = sid
    · subst hts
      rw [if_neg (fun hx => hx.2 rfl)]
      refine List.count_eq_zero.mpr ?_
      intro hmem0
      have hx := (List.mem_filter.mp hmem0).2
      simp at hx
    · by_cases htm : t ∈ memberIds c
      · rw [if_pos ⟨htm, hts⟩]
        rw [@List.count_filter _ _ _ (fun x => x != sid) t (memberIds c)
          (bne_iff_ne.mpr hts)]
        exact List.count_eq_one_of_mem hnodup htm
      · rw [if_neg (fun hx => htm hx.1)]
        refine List.count_eq_zero.mpr ?_
        intro hmem0
        exact htm (List.mem_filter.mp hmem0).1

/-- A second client registering as bob and joining the demo channel. -/
def demo5 : Server := acceptConn demo4 1

def demo6 : Server := (processMessage demo5 1 (nickMsg "bob")).1

def demo7 : Server := (processMessage demo6 1 (userMsg "bob" "Bob")).1

def demo8 : Server := (processMessage demo7 1 (joinCmd "#test")).1

theorem reachable_demo8 : Reachable demo8 :=
  Reachable.step (Reachable.step (Reachable.step (Reachable.step reachable_demo4
    (Step.accept demo4 1 rfl))
    (Step.msg demo5 1 (nickMsg "bob")))
    (Step.msg demo6 1 (userMsg "bob" "Bob")))
    (Step.msg demo7 1 (joinCmd "#test"))

/-- Session 0 of `demo8` (alice, member of #test). -/
def demoSessJ : Session :=
  { state := RegState.registered, nickname := some "Alice"
    username := some "alice", realname := some "Alice"
    hostname := "localhost", modes := [], channels := ["#test"] }

/-- The #test channel of `demo8`, with alice (operator) and bob. -/
def demoChan : Channel :=
  { name := "#test", topic := none
    modes := { inviteOnly := false, moderated := false, secret := false
               topicRestricted := false, noExternal := true }
    key := none, banMasks := [], inviteList := []
    members := [(0, { op := true, voice := false }),
      (1, { op := false, voice := false })] }

theorem c2_witness :
    ((processMessage demo8 0 (privCmd "#test" "hello")).2.map Prod.fst).count 1 = 1 ∧
    ((processMessage demo8 0 (privCmd "#test" "hello")).2.map Prod.fst).count 0 = 0 := by
  have h2 := (c2_privmsg_exactly_once demo8 reachable_demo8 0 demoSessJ "#test"
    "hello" demoChan (by decide) rfl (by decide) (by decide)
    (Or.inl (by decide))).2
  constructor
  · rw [h2 1]
    decide
  · rw [h2 0]
    decide

/-! ## Claim C7: unknown commands and uppercased dispatch lookup -/

/-- C7: a message whose uppercased command name has no entry in the
dispatch table yields numeric 421 addressed to the issuing session,
with no other effect; dispatch lookup is always by the uppercased
command name, so command-name case never changes the result. -/
theorem c7_unknown_command_421 :
    (∀ (srv : Server) (sid : Nat) (sess : Session) (m : Message),
      alook sid srv.sessions = some sess →
      knownCommands.contains (upCase m.command) = false →
      dispatch srv sid m =
        (srv, [numeric srv sid 421 [upCase m.command, "Unknown command"]])) ∧
    (∀ (srv : Server) (sid : Nat) (o : Option String) (c1 c2 : String)
      (ps : List String),
      upCase c1 = upCase c2 →
      dispatch srv sid { origin := o, command := c1, params := ps } =
        dispatch srv sid { origin := o, command := c2, params := ps }) := by
  constructor
  · intro srv sid sess m hlook hk
    rw [dispatch_eq _ hlook]
    unfold dispatchCmd
    rw [if_pos (fun hx => Bool.false_ne_true (hk.symm.trans hx))]
  · intro srv sid o c1 c2 ps heq
    unfold dispatch
    split
    next => rfl
    next sess hl =>
      show dispatchCmd srv sid sess (upCase c1) ps =
        dispatchCmd srv sid sess (upCase c2) ps
      rw [heq]

theorem c7_witness :
    dispatch demo3 0 { origin := none, command := "bogus", params := [] } =
      (demo3, [numeric demo3 0 421 [upCase "bogus", "Unknown command"]]) ∧
    dispatch demo3 0 { origin := none, command := "join", params := ["#x"] } =
      dispatch demo3 0 { origin := none, command := "JOIN", params := ["#x"] } :=
  ⟨c7_unknown_command_421.1 demo3 0 demoSess
      { origin := none, command := "bogus", params := [] } (by decide) (by decide),
   c7_unknown_command_421.2 demo3 0 none "join" "JOIN" ["#x"] (by decide)⟩

/-! ## Claim C8: CLOSING sessions -/

/-- C8: a session in CLOSING state receives no further command
processing, and the Router only ever delivers to sessions that exist
and are not CLOSING — output for a CLOSING session is silently
dropped, never retried. -/
theorem c8_closing_excluded :
    (∀ (srv : Server) (sid : Nat) (m : Message) (sess : Session),
      alook sid srv.sessions = some sess → sess.state = RegState.closing →
      processMessage srv sid m = (srv, [])) ∧
    (∀ (srv : Server) (targets : List Nat) (msg : Message) (o : Output),
      o ∈ route srv targets msg →
      ∃ sess, alook o.1 srv.sessions = some sess ∧
        sess.state ≠ RegState.closing) := by
  constructor
  · intro srv sid m sess hlook hcl
    unfold processMessage
    split
    next => rfl
    next sess2 h0 =>
      rw [hlook] at h0
      injection h0 with he
      subst he
      rw [if_pos hcl]
  · intro srv targets msg o ho
    unfold route at ho
    obtain ⟨t, ht, hto⟩ := List.mem_map.mp ho
    have ht2 := (List.mem_filter.mp ht).2
    rw [← hto]
    unfold notClosing at ht2
    split at ht2
    next sess2 hl => exact ⟨sess2, hl, by simpa using ht2⟩
    next hl => exact absurd ht2 Bool.false_ne_true

/-- `demo3` after connection 0 is lost: its session is CLOSING. -/
def demoC : Server := disconnect demo3 0

/-- The CLOSING session of `demoC`. -/
def demoSessC : Session :=
  { state := RegState.closing, nickname := some "Alice"
    username := some "alice", realname := some "Alice"
    hostname := "localhost", modes := [], channels := [] }

theorem c8_witness :
    processMessage demoC 0 (nickMsg "x") = (demoC, []) ∧
    ∃ sess, alook (0 : Nat) demo3.sessions = some sess ∧
      sess.state ≠ RegState.closing :=
  ⟨c8_closing_excluded.1 demoC 0 (nickMsg "x") demoSessC (by decide) rfl,
   c8_closing_excluded.2 demo3 [0] (nickMsg "x") (0, nickMsg "x") (by decide)⟩

/-! ## Claim C9: semantic errors mutate nothing -/

/-- C9: semantic errors — unknown command, command in the wrong
registration state, bad parameter count, permission denied (KICK
without the operator flag, JOIN against invite-only) — are reported to
the issuing session via the matching numeric reply (421, 451, 461,
482, 473) and cause no mutation of any server state: the returned
server is exactly the input server. -/
theorem c9_semantic_errors_pure :
    (∀ (srv : Server) (sid : Nat) (sess : Session) (cmd : String)
      (ps : List String),
      knownCommands.contains cmd = false →
      dispatchCmd srv sid sess cmd ps =
        (srv, [numeric srv sid 421 [cmd, "Unknown command"]])) ∧
    (∀ (srv : Server) (sid : Nat) (sess : Session) (cmd : String)
      (ps : List String),
      knownCommands.contains cmd = true →
      requiresRegistration cmd = true →
      sess.state ≠ RegState.registered →
      dispatchCmd srv sid sess cmd ps =
        (srv, [numeric srv sid 451 ["You have not registered"]])) ∧
    (∀ (srv : Server) (sid : Nat) (sess : Session) (cmd : String)
      (ps : List String),
      knownCommands.contains cmd = true →
      (requiresRegistration cmd = true → sess.state = RegState.registered) →
      ps.length < minParams cmd →
      dispatchCmd srv sid sess cmd ps =
        (srv, [numeric srv sid 461 [cmd, "Not enough parameters"]])) ∧
    (∀ (srv : Server) (sid : Nat) (sess : Session) (ch tn : String)
      (rest : List String) (c : Channel),
      alook (casefold ch) srv.channels = some c →
      isMember c sid = true →
      isOp c sid = false →
      handleKick srv sid sess (ch :: tn :: rest) =
        (srv, [numeric srv sid 482 [ch, "You are not channel operator"]])) ∧
    (∀ (srv : Server) (sid : Nat) (sess : Session) (ch : String)
      (rest : List String) (c : Channel),
      isChannelName ch = true →
      alook (casefold ch) srv.channels = some c →
      isMember c sid = false →
      c.modes.inviteOnly = true →
      c.inviteList.contains (casefold (sessionNick sess)) = false →
      handleJoin srv sid sess (ch :: rest) =
        (srv, [numeric srv sid 473 [ch, "Cannot join channel (invite only)"]])) := by
  refine ⟨?_, ?_, ?_, ?_, ?_⟩
  · intro srv sid sess cmd ps hk
    unfold dispatchCmd
    rw [if_pos (fun hx => Bool.false_ne_true (hk.symm.trans hx))]
  · intro srv sid sess cmd ps hk hrr hst
    unfold dispatchCmd
    rw [if_neg (fun hx => hx hk)]
    rw [if_pos (by simp [hrr, hst])]
  · intro srv sid sess cmd ps hk himp hlen
    unfold dispatchCmd
    rw [if_neg (fun hx => hx hk)]
    have h2 : (requiresRegistration cmd &&
        decide (sess.state ≠ RegState.registered)) = false := by
      cases hq : requiresRegistration cmd with
      | false => rfl
      | true => simp [himp hq]
    rw [if_neg (fun hx => Bool.false_ne_true (h2.symm.trans hx))]
    rw [if_pos hlen]
  · intro srv sid sess ch tn rest c hchan hmem hop
    simp only [handleKick]
    split
    next h0 =>
      rw [hchan] at h0
      exact Option.noConfusion h0
    next c2 h0 =>
      rw [hchan] at h0
      injection h0 with he
      subst he
      rw [if_neg (fun hx => hx hmem)]
      rw [if_pos (fun hx => Bool.false_ne_true (hop.symm.trans hx))]
  · intro srv sid sess ch rest c hcn hchan hmem hio hinv
    simp only [handleJoin]
    rw [if_neg (fun hx => hx hcn)]
    split
    next h0 =>
      rw [hchan] at h0
      exact Option.noConfusion h0
    next c2 h0 =>
      rw [hchan] at h0
      injection h0 with he
      subst he
      rw [if_neg (fun hx => Bool.false_ne_true (hmem.symm.trans hx))]
      rw [if_pos (by rw [hio, hinv]; rfl)]

/-- Session 1 of `demo8` (bob, non-operator member of #test). -/
def demoSessBob : Session :=
  { state := RegState.registered, nickname := some "bob"
    username := some "bob", realname := some "Bob"
    hostname := "localhost", modes := [], channels := ["#test"] }

theorem c9_witness :
    dispatchCmd demo3 0 demoSess "BOGUS" [] =
      (demo3, [numeric demo3 0 421 ["BOGUS", "Unknown command"]]) ∧
    handleKick demo8 1 demoSessBob ("#test" :: "Alice" :: []) =
      (demo8, [numeric demo8 1 482 ["#test", "You are not channel operator"]]) :=
  ⟨c9_semantic_errors_pure.1 demo3 0 demoSess "BOGUS" [] (by decide),
   c9_semantic_errors_pure.2.2.2.1 demo8 1 demoSessBob "#test" "Alice" []
     demoChan (by decide) (by decide) (by decide)⟩

/-! ## Claim C10: packaging metadata (src/setup.py) -/

/-- Embedded from `src/setup.py`: the keyword arguments of the single
`setup()` call.  Fields the call does not pass keep the setuptools
defaults (no packages, no py_modules, no entry_points). -/
structure SetupArgs where
  name : String
  description : String
  license : String
  author : String
  authorEmail : String
  scripts : List String
  packages : List String := []
  pyModules : List String := []
  entryPoints : List String := []

/-- The `setup()` invocation of `src/setup.py`. -/
def lonelyIrcdSetup : SetupArgs :=
  { name := "lonely-ircd"
    description := "The loneliness IRC server"
    license := "MPL-2.0"
    author := "Ryan Finnie"
    authorEmail := "ryan@finnie.org"
    scripts := ["lonely-ircd"] }

/-- The files present in the repository's source tree. -/
def repoSourceFiles : List String := ["setup.py"]

/-- C10: the packaging metadata declares exactly one installed
executable — the script `lonely-ircd` — and no packages, py_modules or
entry points, so the distribution installs no importable library code;
the repository's source tree holds only `setup.py`, not the protocol
core. -/
theorem c10_setup_declares_script_only :
    lonelyIrcdSetup.scripts = ["lonely-ircd"] ∧
    lonelyIrcdSetup.scripts.length = 1 ∧
    lonelyIrcdSetup.packages = [] ∧
    lonelyIrcdSetup.pyModules = [] ∧
    lonelyIrcdSetup.entryPoints = [] ∧
    repoSourceFiles = ["setup.py"] :=
  ⟨rfl, rfl, rfl, rfl, rfl, rfl⟩

end LonelyIrc
